import Mathlib

/-!
Verification of the imp typesetting engine (github.com/tux21b/imp).

This file contains a shallow embedding of the parts of the program that the
claims concern, translated from the Go sources:

* the OpenType/TrueType font parser and glyph machinery of the otf package
  (src/unnamed/part_000): table directory parsing, cmap format-4 lookup
  (Index and Index2), horizontal metrics, kerning (GPOS pair and class),
  ligature substitution, small caps, and the full Parse pipeline;
* the classic kern-table parser of src/font.go (parseKern);
* the line breaker scan, the justification scan and the content-stream
  space emission of src/main.go;
* the low-level PDF writer of src/imp/pdf/pdf.go.

Modelling conventions:
* byte buffers are lists of naturals, each element being one byte value;
  Go reads that would panic (index out of range) are totalized with a 0
  default and are noted where they occur;
* Go machine integers are modelled as Nat (unsigned) or Int (signed) with
  explicit mod-2^16 where the code truncates to uint16; Go integer division
  (truncation toward zero) is Int.tdiv;
* Go float64 arithmetic in the layout engine is modelled exactly over the
  rationals;
* loops whose index interacts with a mutating slice are modelled with an
  explicit fuel argument that dominates the loop's decreasing measure, so
  that the definitions stay executable by the kernel.
-/

set_option maxRecDepth 4000

namespace Imp

/-- FontError mirrors the Go error type (a string). -/
abbrev FontError := String

/-- u16 returns the big-endian uint16 at b[i:], as in the Go source.  A Go
read past the end of the slice panics; the model reads 0 instead. -/
def u16 (b : List Nat) (i : Nat) : Nat :=
  256 * b.getD i 0 + b.getD (i + 1) 0

/-- u32 returns the big-endian uint32 at b[i:], as in the Go source. -/
def u32 (b : List Nat) (i : Nat) : Nat :=
  16777216 * b.getD i 0 + 65536 * b.getD (i + 1) 0 + 256 * b.getD (i + 2) 0 + b.getD (i + 3) 0

/-- u16At reads a big-endian uint16 at a Go int (possibly negative) offset.
Go would panic on a negative index; the model returns 0. -/
def u16At (b : List Nat) (i : Int) : Nat :=
  if 0 ≤ i then u16 b i.toNat else 0

/-- i16 reinterprets a uint16 value as the signed int16 it encodes, matching
the Go casts int(int16(u16 ...)). -/
def i16 (v : Nat) : Int :=
  if v < 32768 then (v : Int) else (v : Int) - 65536

/-- cm holds a parsed cmap entry, as in the Go source.  The Go field named
end is called stop here because end is a Lean keyword. -/
structure cm where
  start : Nat := 0
  stop : Nat := 0
  delta : Nat := 0
  offset : Nat := 0
deriving DecidableEq, Repr, Inhabited

/-- HMetric holds the horizontal metrics of a single glyph (Go type HMetric). -/
structure HMetric where
  Width : Int := 0
  Left : Int := 0
deriving DecidableEq, Repr, Inhabited

/-- Ligature is a substitution rule parsed from GSUB (Go type Ligature). -/
structure Ligature where
  Old : List Nat := []
  New : Nat := 0
deriving DecidableEq, Repr, Inhabited

/-- Kerning is one GPOS pair-kerning record (Go type Kerning). -/
structure Kerning where
  First : Nat := 0
  Second : Nat := 0
  Horiz : Int := 0
deriving DecidableEq, Repr, Inhabited

/-- classKerner is the GPOS class-based kerning table (Go type classKerner). -/
structure classKerner where
  classA : List Nat := []
  classB : List Nat := []
  table : List Int := []
  countA : Nat := 0
  countB : Nat := 0
deriving DecidableEq, Repr, Inhabited

/-- Font is the parsed font of the otf package (src/unnamed/part_000).
Glyph indices (Go type Index, a uint16) are modelled as Nat.  The Go field
ItalicAngle is a float32 computed as int16 + frac/65535; the model stores
the two raw parts (italicInt, italicFrac) instead of the quotient. -/
structure Font where
  FullName : String := ""
  PostscriptName : String := ""
  UnitsPerEm : Int := 0
  XMin : Int := 0
  XMax : Int := 0
  YMin : Int := 0
  YMax : Int := 0
  Ascender : Int := 0
  Descender : Int := 0
  CapHeight : Int := 0
  italicInt : Int := 0
  italicFrac : Nat := 0
  cm : List cm := []
  hm : List HMetric := []
  cmapIndexes : List Nat := []
  nHMetric : Nat := 0
  nGlyph : Nat := 0
  nKern : Nat := 0
  kernTable : List Nat := []
  tables : List (String × List Nat) := []
  liga : List Ligature := []
  kern : List Kerning := []
  classKern : Option classKerner := none
  smcpBefore : List Nat := []
  smcpAfter : List Nat := []
  full : List Nat := []
  head : List Nat := []
  name : List Nat := []
  cff : List Nat := []
  os2 : List Nat := []
  gpos : List Nat := []
deriving DecidableEq, Repr, Inhabited

/-- Scale mirrors Go func (f *Font) Scale: (value * scale) / f.UnitsPerEm
with Go truncating integer division.  Go panics when UnitsPerEm = 0; the
model yields 0 there (Int.tdiv by zero). -/
def Font.Scale (f : Font) (value scale : Int) : Int :=
  Int.tdiv (value * scale) f.UnitsPerEm

/-- NumGlyphs mirrors Go func (f *Font) NumGlyphs. -/
def Font.NumGlyphs (f : Font) : Nat :=
  f.nGlyph

/-- HMetric mirrors Go func (f *Font) HMetric.  The Go guard i < 0 is
vacuous for the uint16 index type and is dropped for the Nat model. -/
def Font.HMetric (f : Font) (i : Nat) : HMetric :=
  if f.hm.length = 0 ∨ f.nGlyph ≤ i then {}
  else if f.nHMetric ≤ i then f.hm.getD (f.hm.length - 1) {}
  else f.hm.getD i {}

/-- segValue names the two result branches of the binary search in Go
func (f *Font) Index: for the matched segment h, if cm.offset == 0 the
result is Index(c + cm.delta) (uint16 truncation), otherwise the uint16
read from f.cmapIndexes at int(cm.offset) + 2*(h - len(f.cm) + int(c - cm.start)).
That offset is a Go int and can be negative (a Go panic); u16At totalizes. -/
def segValue (f : Font) (h c : Nat) : Nat :=
  let seg := f.cm.getD h default
  if seg.offset = 0 then (c + seg.delta) % 65536
  else u16At f.cmapIndexes ((seg.offset : Int) + 2 * ((h : Int) - (f.cm.length : Int) + ((c : Int) - (seg.start : Int))))

/-- indexLoop is the binary-search loop of Go func (f *Font) Index, with an
explicit fuel argument that dominates the decreasing measure j - i.  The
source loop is for i, j := 0, len(f.cm); i < j; with h := i + (j-i)/2. -/
def indexLoop (f : Font) (c : Nat) : Nat → Nat → Nat → Nat
  | 0, _, _ => 0
  | fuel + 1, i, j =>
    if i < j then
      let h := i + (j - i) / 2
      let seg := f.cm.getD h default
      if c < seg.start then indexLoop f c fuel i h
      else if seg.stop < c then indexLoop f c fuel (h + 1) j
      else segValue f h c
    else 0

/-- Index mirrors Go func (f *Font) Index.  The rune argument x is
represented by its uint32 value c := uint32(x). -/
def Font.Index (f : Font) (c : Nat) : Nat :=
  indexLoop f c (f.cm.length + 1) 0 f.cm.length

/-- firstStopGE finds the first cmap segment whose end code is at least c,
mirroring the linear scan at the start of Go func (f *Font) Index2. -/
def firstStopGE : List cm → Nat → Option Nat
  | [], _ => none
  | seg :: rest, c =>
    if c ≤ seg.stop then some 0
    else (firstStopGE rest c).map (· + 1)

/-- Index2 mirrors Go func (f *Font) Index2.  rval is a Go rune (int32);
the model uses exact Nat arithmetic, which agrees with the source for all
code points c ≤ 0x10FFFF (no int32 overflow there); the final mod 65536 is
the uint16 conversion of the return Index(rval). -/
def Font.Index2 (f : Font) (c : Nat) : Nat :=
  match firstStopGE f.cm c with
  | none => 0
  | some seg =>
    let s := f.cm.getD seg default
    if s.start > c then 0
    else
      let rval := if s.offset ≠ 0 then u16 f.cmapIndexes (s.offset + 2 * (seg + (c - s.start))) else c
      let rval := if s.delta ≠ 0 then (rval + s.delta) % 65536 else rval
      rval % 65536

/-- SmallCaps mirrors Go func (f *Font) SmallCaps: for each glyph, the inner
loop over smcpBefore replaces the current value whenever an entry matches
(so later entries see the updated value, as in the source). -/
def Font.SmallCaps (f : Font) (glyphs : List Nat) : List Nat :=
  if f.smcpBefore = [] then glyphs
  else glyphs.map fun g =>
    (List.range f.smcpBefore.length).foldl
      (fun g' j => if f.smcpBefore.getD j 0 = g' then f.smcpAfter.getD j 0 else g') g

/-- ligaMatchAt decides whether ligature rule l matches glyphs at position i,
mirroring the matching block inside Go func (f *Font) Ligatures. -/
def ligaMatchAt (glyphs : List Nat) (i : Nat) (l : Ligature) : Bool :=
  decide (i + l.Old.length ≤ glyphs.length) &&
  (List.range l.Old.length).all fun k => glyphs.getD (i + k) 0 == l.Old.getD k 0

/-- ligaLoop is the rewriting loop of Go func (f *Font) Ligatures with an
explicit fuel argument dominating the decreasing measure len(glyphs) - i.
A replacement at i overwrites glyphs[i] with the rule's New glyph and then
splices out the remaining matched glyphs, exactly as the source's
glyphs = append(glyphs[:i+1], glyphs[i+len(liga.Old):]...). -/
def ligaLoop (rules : List Ligature) : Nat → Nat → List Nat → List Nat
  | 0, _, glyphs => glyphs
  | fuel + 1, i, glyphs =>
    if i < glyphs.length then
      match rules.find? (fun l => ligaMatchAt glyphs i l) with
      | some l =>
        let g := glyphs.set i l.New
        ligaLoop rules fuel (i + 1) (g.take (i + 1) ++ g.drop (i + l.Old.length))
      | none => ligaLoop rules fuel (i + 1) glyphs
    else glyphs

/-- Ligatures mirrors Go func (f *Font) Ligatures. -/
def Font.Ligatures (f : Font) (glyphs : List Nat) : List Nat :=
  if f.liga.length = 0 then glyphs
  else ligaLoop f.liga (glyphs.length + 1) 0 glyphs

/-- StringToGlyphs mirrors Go func (f *Font) StringToGlyphs. -/
def Font.StringToGlyphs (f : Font) (text : String) : List Nat :=
  text.data.map fun r => f.Index r.toNat

/-- Kern mirrors Go func (c *classKerner) Kern.  The table read would panic
in Go if the computed index were out of range; the model reads 0. -/
def classKerner.Kern (ck : classKerner) (a b : Nat) : Int :=
  if ck.classA.length ≤ a ∨ ck.classB.length ≤ b then 0
  else ck.table.getD (ck.classA.getD a 0 + ck.classB.getD b 0 * ck.countA) 0

/-- Kerning mirrors Go func (f *Font) Kerning: the sum over all matching
pair records, plus the class kerner when present, scaled by Scale. -/
def Font.Kerning (f : Font) (scale : Int) (a b : Nat) : Int :=
  let kern := f.kern.foldl (fun acc k => if k.First = a ∧ k.Second = b then acc + k.Horiz else acc) 0
  let kern := kern + (match f.classKern with | some ck => ck.Kern a b | none => 0)
  f.Scale kern scale

/-! Font parser (src/unnamed/part_000, func Parse and the table parsers). -/

/-- tagString decodes the four bytes data[x:x+4] as a table or script tag,
mirroring the Go string(data[x:x+4]) for the ASCII tags the format uses. -/
def tagString (data : List Nat) (x : Nat) : String :=
  String.mk [Char.ofNat (data.getD x 0), Char.ofNat (data.getD (x + 1) 0),
    Char.ofNat (data.getD (x + 2) 0), Char.ofNat (data.getD (x + 3) 0)]

/-- getTable looks a table up in the tag-to-slice map; like a Go map, a later
entry for the same tag overwrites an earlier one, and a missing tag yields
the nil (empty) slice. -/
def getTable (tables : List (String × List Nat)) (tag : String) : List Nat :=
  tables.foldl (fun acc t => if t.1 = tag then t.2 else acc) []

/-- readTable mirrors Go func readTable.  The Go negativity checks on offset
and length can never fire for uint32 values on a 64-bit int and are dropped. -/
def readTable (ttf : List Nat) (offsetLength : List Nat) : Except FontError (List Nat) := do
  let offset := u32 offsetLength 0
  let length := u32 offsetLength 4
  if offset + length > ttf.length then
    throw "offset + length too large"
  return (ttf.drop offset).take length

/-- decodeUtf16 mirrors Go utf16.Decode: surrogate pairs are combined and
unpaired surrogates become U+FFFD. -/
def decodeUtf16 : List Nat → List Char
  | [] => []
  | [a] =>
    if 0xD800 ≤ a ∧ a ≤ 0xDFFF then [Char.ofNat 0xFFFD]
    else [Char.ofNat a]
  | a :: b :: rest2 =>
    if 0xD800 ≤ a ∧ a ≤ 0xDBFF then
      if 0xDC00 ≤ b ∧ b ≤ 0xDFFF then
        Char.ofNat (0x10000 + (a - 0xD800) * 0x400 + (b - 0xDC00)) :: decodeUtf16 rest2
      else Char.ofNat 0xFFFD :: decodeUtf16 (b :: rest2)
    else if 0xDC00 ≤ a ∧ a ≤ 0xDFFF then Char.ofNat 0xFFFD :: decodeUtf16 (b :: rest2)
    else Char.ofNat a :: decodeUtf16 (b :: rest2)

/-- lookupName mirrors Go func (f *Font) lookupName. -/
def lookupName (f : Font) (nameId : Nat) : Except FontError String := do
  if f.name.length < 6 then throw "name block is too short"
  let format := u16 f.name 0
  if format ≠ 0 ∧ format ≠ 1 then throw "invalid name block format"
  let count := u16 f.name 2
  let strOffset := u16 f.name 4
  if 6 + count * 12 > f.name.length then throw "name block is too short"
  let mut found : Int := -1
  for i in List.range count do
    let platformID := u16 f.name (6 + i * 12)
    let specificID := u16 f.name (8 + i * 12)
    let languageID := u16 f.name (10 + i * 12)
    let nameID := u16 f.name (12 + i * 12)
    if nameID = nameId ∧
        ((platformID = 0 ∧ languageID = 0) ∨
          (platformID = 3 ∧ specificID = 1 ∧ languageID = 0x409)) then
      found := (i : Int)
      break
  if found < 0 then return ""
  let fi := found.toNat
  let length := u16 f.name (14 + fi * 12)
  let offset := u16 f.name (16 + fi * 12) + strOffset
  if offset + length > f.name.length ∨ length % 2 ≠ 0 then
    throw "invalid name entry offset or length"
  let runes := (List.range (length / 2)).map fun i => u16 f.name (offset + 2 * i)
  return String.mk (decodeUtf16 runes)

/-- parseCmap mirrors Go func (f *Font) parseCmap.  The format-4 array reads
have no bounds checks in the source (a short table panics in Go); the model
reads 0 past the end. -/
def parseCmap (f : Font) (cmap : List Nat) : Except FontError Font := do
  if cmap.length < 4 then throw "cmap too short"
  let nsubtab := u16 cmap 2
  if cmap.length < 8 * nsubtab + 4 then throw "cmap too short"
  let mut offset : Nat := 0
  let mut found := false
  let mut x := 4
  for _ in List.range nsubtab do
    let pidPsid := u32 cmap x
    let o := u32 cmap (x + 4)
    x := x + 8
    if pidPsid = 0x00000003 then
      offset := o
      found := true
      break
    else if pidPsid = 0x00030000 ∨ pidPsid = 0x00030001 ∨ pidPsid = 0x0003000a then
      offset := o
      found := true
  if ¬ found then throw "unsupported cmap encoding"
  if offset = 0 ∨ offset > cmap.length then throw "bad cmap offset"
  let cmapFormat := u16 cmap offset
  if cmapFormat = 4 then
    let language := u16 cmap (offset + 4)
    if language ≠ 0 then throw "unsupported language"
    let segCountX2 := u16 cmap (offset + 6)
    if segCountX2 % 2 = 1 then throw "bad segCountX2"
    let segCount := segCountX2 / 2
    let off := offset + 14
    let segs := (List.range segCount).map fun i =>
      { stop := u16 cmap (off + 2 * i),
        start := u16 cmap (off + 2 * segCount + 2 + 2 * i),
        delta := u16 cmap (off + 4 * segCount + 2 + 2 * i),
        offset := u16 cmap (off + 6 * segCount + 2 + 2 * i) : cm }
    return { f with cm := segs, cmapIndexes := cmap.drop (off + 8 * segCount + 2) }
  throw "unsupported cmap format"

/-- parseHead mirrors Go func (f *Font) parseHead. -/
def parseHead (f : Font) : Except FontError Font := do
  if u32 f.head 0 ≠ 0x00010000 then throw "invalid head block version"
  if f.head.length ≠ 54 then throw "invalid head block length"
  return { f with
    UnitsPerEm := (u16 f.head 18 : Int),
    XMin := i16 (u16 f.head 36),
    YMin := i16 (u16 f.head 38),
    XMax := i16 (u16 f.head 40),
    YMax := i16 (u16 f.head 42) }

/-- parseOS2 mirrors Go func (f *Font) parseOS2. -/
def parseOS2 (f : Font) : Except FontError Font := do
  if f.os2.length < 72 then throw "OS/2 block is too short"
  let version := u16 f.os2 0
  let ascender := i16 (u16 f.os2 68)
  let descender := i16 (u16 f.os2 70)
  let capHeight := if version ≥ 2 ∧ f.os2.length ≥ 90 then i16 (u16 f.os2 88) else ascender
  return { f with Ascender := ascender, Descender := descender, CapHeight := capHeight }

/-- parseHhea mirrors Go func (f *Font) parseHhea. -/
def parseHhea (f : Font) (hhea : List Nat) : Except FontError Font := do
  if hhea.length ≠ 36 then throw "bad TTF hhea block length"
  return { f with nHMetric := u16 hhea 34 }

/-- parseHmtx mirrors Go func (f *Font) parseHmtx.  Both fields are read
with the unsigned u16, exactly as in the source. -/
def parseHmtx (f : Font) (hmtx : List Nat) : Except FontError Font := do
  if hmtx.length < 4 * f.nHMetric then throw "bad TTF hmtx block length"
  let hm := (List.range f.nHMetric).map fun i =>
    { Width := (u16 hmtx (4 * i) : Int), Left := (u16 hmtx (4 * i + 2) : Int) : HMetric }
  return { f with hm := hm }

/-- parseMaxp mirrors Go func (f *Font) parseMaxp. -/
def parseMaxp (f : Font) (maxp : List Nat) : Except FontError Font := do
  if maxp.length < 6 then throw "bad TTF maxp block length"
  return { f with nGlyph := u16 maxp 4 }

/-- parsePost mirrors Go func (f *Font) parsePost; the raw integer and
fractional parts of the italic angle are stored (see Font). -/
def parsePost (f : Font) (post : List Nat) : Except FontError Font := do
  if post.length < 16 then throw "TTF post block is too short"
  return { f with italicInt := i16 (u16 post 4), italicFrac := u16 post 6 }

/-- parseCoverage mirrors Go func (f *Font) parseCoverage. -/
def parseCoverage (data : List Nat) (offset : Nat) : Except FontError (List Nat) := do
  if offset + 4 > data.length then throw "unexpected end of coverage list"
  let format := u16 data offset
  let count := u16 data (offset + 2)
  if format = 1 then
    if offset + 4 + count * 2 > data.length then throw "unexpected end of coverage list"
    return (List.range count).map fun i => u16 data (offset + 4 + 2 * i)
  else if format = 2 then
    if offset + 4 + count * 6 > data.length then throw "unexpected end of coverage list"
    let mut glyphs : List Nat := []
    for i in List.range count do
      let first := u16 data (offset + 4 + 6 * i)
      let last := u16 data (offset + 4 + 6 * i + 2)
      for g in List.range (last + 1 - first) do
        glyphs := glyphs ++ [first + g]
    return glyphs
  else throw "unsupported coverage format"

/-- parseScriptTable mirrors Go func (f *Font) parseScriptTable.  The Go
scriptOffset and langSysOffset are ints that stay nonnegative (u16 reads),
so the Go tests offset <= 0 become offset = 0. -/
def parseScriptTable (data : List Nat) (scriptTableOffset : Nat) (script lang : String) :
    Except FontError (List Nat) := do
  if scriptTableOffset + 2 > data.length then throw "unexpected end of GSUB script table"
  let scriptsCount := u16 data scriptTableOffset
  if scriptTableOffset + 2 + scriptsCount * 6 > data.length then
    throw "unexpected end of GSUB script list"
  let mut scriptOffset : Nat := 0
  for i in List.range scriptsCount do
    let x := scriptTableOffset + 2 + i * 6
    let scriptTag := tagString data x
    if scriptTag = "DFLT" then
      scriptOffset := u16 data (x + 4)
    else if scriptTag = script then
      scriptOffset := u16 data (x + 4)
      break
  if scriptOffset = 0 then throw "no suitable script table not found"
  let scriptOffset2 := scriptOffset + scriptTableOffset
  if scriptOffset2 + 4 > data.length then throw "invalid script offset"
  let mut langSysOffset : Nat := u16 data scriptOffset2
  let langSysCount := u16 data (scriptOffset2 + 2)
  if scriptOffset2 + 4 + 6 * langSysCount > data.length then
    throw "unexpected end of script table"
  for i in List.range langSysCount do
    let x := scriptOffset2 + 4 + 6 * i
    let langID := tagString data x
    if langID = lang then
      langSysOffset := u16 data (x + 4)
      break
    else if langID = "dflt" then
      langSysOffset := u16 data (x + 4)
  if langSysOffset = 0 then throw "no suitable language/system table found"
  let langSysOffset2 := langSysOffset + scriptOffset2
  if langSysOffset2 + 6 > data.length then throw "invalid langSysOffset"
  let mut featureIDs : List Nat := []
  let required := u16 data (langSysOffset2 + 2)
  if required ≠ 0xFFFF then featureIDs := featureIDs ++ [required]
  let featureTableCount := u16 data (langSysOffset2 + 4)
  if langSysOffset2 + 6 + featureTableCount * 2 > data.length then
    throw "unexpected end of lang/sys table"
  for i in List.range featureTableCount do
    featureIDs := featureIDs ++ [u16 data (langSysOffset2 + 6 + i * 2)]
  return featureIDs

/-- parseFeatureTable mirrors Go func (f *Font) parseFeatureTable. -/
def parseFeatureTable (data : List Nat) (featureTableOffset : Nat) (featureIDs : List Nat)
    (feature : String) : Except FontError (List Nat) := do
  if featureTableOffset + 2 > data.length then throw "invalid feature table"
  let featureCount := u16 data featureTableOffset
  if featureTableOffset + 2 + featureCount * 6 > data.length then
    throw "unexpected end of feature table"
  let mut lookupOffset : Int := -1
  for id in featureIDs do
    if id ≥ featureCount then throw "can not find feature in GSUB feature table"
    let x := featureTableOffset + 2 + id * 6
    if tagString data x = feature then lookupOffset := (u16 data (x + 4) : Int)
  if lookupOffset < 0 then throw "feature not found"
  let lookupOffset2 := lookupOffset.toNat + featureTableOffset
  if lookupOffset2 + 4 > data.length then throw "invalid lookup list"
  let lookupListCount := u16 data (lookupOffset2 + 2)
  if lookupOffset2 + 4 + 2 * lookupListCount > data.length then
    throw "unexpected end of lookup list"
  return (List.range lookupListCount).map fun i => u16 data (lookupOffset2 + 4 + 2 * i)

/-- parseGsub mirrors Go func (f *Font) parseGsub (the liga feature).  With
compCount = 0 the Go source panics writing component[0]; the model produces
an empty component list there instead (the bound check also differs on that
dead branch because Nat subtraction truncates). -/
def parseGsub (f : Font) : Except FontError Font := do
  let data := getTable f.tables "GSUB"
  if data.length = 0 then return f
  if data.length < 10 then throw "GSUB block is too short"
  let scriptTableOffset := u16 data 4
  let featureTableOffset := u16 data 6
  let lookupTableOffset := u16 data 8
  let featureIDs ← parseScriptTable data scriptTableOffset "" ""
  let lookupIDs ← parseFeatureTable data featureTableOffset featureIDs "liga"
  if lookupTableOffset + 2 > data.length then throw "invalid GSUB lookup table"
  let lookupCount := u16 data lookupTableOffset
  if lookupTableOffset + 2 + lookupCount * 2 > data.length then
    throw "unexpected end of GSUB lookup table"
  let mut liga : List Ligature := f.liga
  for i in lookupIDs do
    let offset := u16 data (lookupTableOffset + 2 + i * 2) + lookupTableOffset
    if offset + 6 > data.length then throw "unexpected end of GSUB lookup entry"
    let kind := u16 data offset
    let subblockCount := u16 data (offset + 4)
    if offset + 6 + subblockCount * 2 > data.length then
      throw "unexpected end of GSUB lookup entry"
    if kind ≠ 4 then throw "unsupported GSUB lookup type"
    for j in List.range subblockCount do
      let subblockOffset := u16 data (offset + 6 + j * 2) + offset
      if subblockOffset + 6 > data.length then throw "unexpected end of GSUB subblock"
      if u16 data subblockOffset ≠ 1 then throw "unsupported GSUB lookup type 4 format"
      let coverageOffset := u16 data (subblockOffset + 2) + subblockOffset
      let ligaSetCount := u16 data (subblockOffset + 4)
      let coverage ← parseCoverage data coverageOffset
      if coverage.length ≠ ligaSetCount then
        throw "GSUB coverage length doesn't match ligature set length"
      if subblockOffset + 6 + ligaSetCount * 2 > data.length then
        throw "unexpected end of GSUB liga subblock"
      for k in List.range ligaSetCount do
        let ligaSetOffset := u16 data (subblockOffset + 6 + k * 2) + subblockOffset
        if ligaSetOffset + 2 > data.length then throw "unexpected end of GSUB ligature set"
        let ligaCount := u16 data ligaSetOffset
        if ligaSetOffset + 2 + 2 * ligaCount > data.length then
          throw "unexpected end of GSUB ligature set"
        for l in List.range ligaCount do
          let ligaOffset := u16 data (ligaSetOffset + 2 + 2 * l) + ligaSetOffset
          if ligaOffset + 4 > data.length then throw "unexpected end of GSUB ligature entry"
          let ligaGlyph := u16 data ligaOffset
          let compCount := u16 data (ligaOffset + 2)
          if ligaOffset + 4 + (compCount - 1) * 2 > data.length then
            throw "unexpected end of GSUB ligature entry"
          let component := (List.range compCount).map fun m =>
            if m = 0 then coverage.getD k 0 else u16 data (ligaOffset + 4 + m * 2 - 2)
          liga := liga ++ [{ Old := component, New := ligaGlyph }]
  return { f with liga := liga }

/-- parseGsubSmcp mirrors Go func (f *Font) parseGsubSmcp (the smcp
feature); note that a missing smcp feature is success, not an error. -/
def parseGsubSmcp (f : Font) : Except FontError Font := do
  let data := getTable f.tables "GSUB"
  if data.length = 0 then return f
  if data.length < 10 then throw "GSUB block is too short"
  let scriptTableOffset := u16 data 4
  let featureTableOffset := u16 data 6
  let lookupTableOffset := u16 data 8
  let featureIDs ← parseScriptTable data scriptTableOffset "" ""
  let lookupIDs ←
    match parseFeatureTable data featureTableOffset featureIDs "smcp" with
    | .error _ => return f
    | .ok ids => pure ids
  if lookupTableOffset + 2 > data.length then throw "invalid GSUB lookup table"
  let lookupCount := u16 data lookupTableOffset
  if lookupTableOffset + 2 + lookupCount * 2 > data.length then
    throw "unexpected end of GSUB lookup table"
  let mut smcpBefore := f.smcpBefore
  let mut smcpAfter := f.smcpAfter
  for i in lookupIDs do
    let offset := u16 data (lookupTableOffset + 2 + i * 2) + lookupTableOffset
    if offset + 6 > data.length then throw "unexpected end of GSUB lookup entry"
    let kind := u16 data offset
    let subblockCount := u16 data (offset + 4)
    if offset + 6 + subblockCount * 2 > data.length then
      throw "unexpected end of GSUB lookup entry"
    if kind ≠ 1 then throw "unsupported GSUB lookup type"
    for j in List.range subblockCount do
      let subblockOffset := u16 data (offset + 6 + j * 2) + offset
      if subblockOffset + 6 > data.length then throw "unexpected end of GSUB subblock"
      if u16 data subblockOffset ≠ 2 then throw "unsupported GSUB lookup type 1 format"
      let coverageOffset := u16 data (subblockOffset + 2) + subblockOffset
      let setCount := u16 data (subblockOffset + 4)
      let coverage ← parseCoverage data coverageOffset
      if coverage.length ≠ setCount then throw "GSUB coverage length doesn't match set length"
      if subblockOffset + 6 + setCount * 2 > data.length then
        throw "unexpected end of GSUB liga subblock"
      let repl := (List.range setCount).map fun k => u16 data (subblockOffset + 6 + 2 * k)
      smcpBefore := coverage
      smcpAfter := repl
  return { f with smcpBefore := smcpBefore, smcpAfter := smcpAfter }

/-- parseKernClassDef mirrors Go func (f *Font) parseKernClassDef. -/
def parseKernClassDef (f : Font) (data : List Nat) (offset : Nat) (classCount : Nat) :
    Except FontError (List Nat) := do
  if offset + 4 > data.length then throw "unexpected end of class definition"
  if u16 data offset ≠ 2 then throw "unsupported class definition format"
  let count := u16 data (offset + 2)
  if offset + 4 + count * 6 > data.length then throw "unexpected end of class definition"
  let mut classes : List Nat := List.replicate f.nGlyph 0
  for k in List.range count do
    let start := u16 data (offset + 4 + k * 6)
    let stop := u16 data (offset + 4 + k * 6 + 2)
    let cls := u16 data (offset + 4 + k * 6 + 4)
    if stop ≥ classes.length then throw "invalid glyph range"
    if cls ≥ classCount then throw "invalid class number"
    for l in List.range (stop + 1 - start) do
      classes := classes.set (start + l) cls
  return classes

/-- parseGpos mirrors Go func (f *Font) parseGpos (the kern feature, GPOS
lookup type 2, pair subtable formats 1 and 2).  The reverse array built from
Index is dead code in the source and is reproduced as such. -/
def parseGpos (f : Font) : Except FontError Font := do
  let data := getTable f.tables "GPOS"
  if data.length = 0 then return f
  if data.length < 10 then throw "GPOS block is too short"
  let scriptTableOffset := u16 data 4
  let featureTableOffset := u16 data 6
  let lookupTableOffset := u16 data 8
  let featureIDs ← parseScriptTable data scriptTableOffset "" ""
  let lookupIDs ← parseFeatureTable data featureTableOffset featureIDs "kern"
  let mut reverse : List Nat := List.replicate f.NumGlyphs 0
  for i in List.range 65535 do
    reverse := reverse.set (f.Index i) i
  let mut kern := f.kern
  let mut classKern := f.classKern
  for i in lookupIDs do
    let offset := u16 data (lookupTableOffset + 2 + i * 2) + lookupTableOffset
    if offset + 6 > data.length then throw "unexpected end of GPOS lookup entry"
    let kind := u16 data offset
    let subblockCount := u16 data (offset + 4)
    if offset + 6 + subblockCount * 2 > data.length then
      throw "unexpected end of GPOS lookup entry"
    if kind ≠ 2 then throw "unsupported GPOS lookup type"
    for j in List.range subblockCount do
      let subblockOffset := u16 data (offset + 6 + j * 2) + offset
      if subblockOffset + 2 > data.length then throw "unexpected end of GPOS subblock"
      let format := u16 data subblockOffset
      if format = 1 then
        if subblockOffset + 10 > data.length then throw "unexpected end of GPOS subblock"
        let coverageOffset := u16 data (subblockOffset + 2) + subblockOffset
        let format1 := u16 data (subblockOffset + 4)
        let format2 := u16 data (subblockOffset + 6)
        let pairSetCount := u16 data (subblockOffset + 8)
        if format1 ≠ 4 ∨ format2 ≠ 0 then throw "unsupported kern format"
        if coverageOffset + 4 + 2 * pairSetCount > data.length then
          throw "unexpected end of GPOS coverage"
        if u16 data coverageOffset ≠ 1 then throw "unsupported GPOS coverage format"
        if u16 data (coverageOffset + 2) ≠ pairSetCount then
          throw "GPOS coverage length doesn't match pair set length"
        let coverage := (List.range pairSetCount).map fun k => u16 data (coverageOffset + 4 + 2 * k)
        if subblockOffset + 10 + pairSetCount * 2 > data.length then
          throw "unexpected end of GPOS kern subblock"
        for k in List.range pairSetCount do
          let pairSetOffset := u16 data (subblockOffset + 10 + k * 2) + subblockOffset
          if pairSetOffset + 2 > data.length then throw "unexpected end of GPOS pair set"
          let pairCount := u16 data pairSetOffset
          if pairSetOffset + 2 + 4 * pairCount > data.length then
            throw "unexpected end of GPOS pair set"
          for l in List.range pairCount do
            let secondGlyph := u16 data (pairSetOffset + 2 + 4 * l)
            let kv := i16 (u16 data (pairSetOffset + 2 + 4 * l + 2))
            kern := kern ++ [{ First := coverage.getD k 0, Second := secondGlyph, Horiz := kv }]
      else if format = 2 then
        if subblockOffset + 16 > data.length then throw "unexpected end of GPOS subblock"
        let format1 := u16 data (subblockOffset + 4)
        let format2 := u16 data (subblockOffset + 6)
        let classOffset1 := u16 data (subblockOffset + 8) + subblockOffset
        let classOffset2 := u16 data (subblockOffset + 10) + subblockOffset
        let classCount1 := u16 data (subblockOffset + 12)
        let classCount2 := u16 data (subblockOffset + 14)
        if format1 ≠ 4 ∨ format2 ≠ 0 then throw "unsupported kern format"
        let first ← parseKernClassDef f data classOffset1 classCount1
        let second ← parseKernClassDef f data classOffset2 classCount2
        if subblockOffset + 16 + classCount1 * classCount2 * 2 > data.length then
          throw "unexpected end of GPOS subblock"
        let table := (List.range (classCount1 * classCount2)).map fun k =>
          i16 (u16 data (subblockOffset + 16 + k * 2))
        classKern := some { classA := first, classB := second, table := table, countA := classCount1, countB := classCount2 }
  return { f with kern := kern, classKern := classKern }

/-- Parse mirrors Go func Parse of the otf package. -/
def Parse (data : List Nat) : Except FontError Font := do
  if data.length < 12 then throw "TTF data is too short"
  let version := u32 data 0
  if version ≠ 0x00010000 ∧ version ≠ 0x4f54544f then throw "bad version"
  let n := u16 data 4
  if data.length < 16 * n + 12 then throw "TTF data is too short"
  let mut tables : List (String × List Nat) := []
  for i in List.range n do
    let x := 16 * i + 12
    let name := tagString data x
    let table ← readTable data ((data.drop (x + 8)).take 8)
    tables := tables ++ [(name, table)]
  let f0 : Font := { full := data, tables := tables }
  let f0 := { f0 with head := getTable tables "head", name := getTable tables "name", gpos := getTable tables "GPOS", cff := getTable tables "CFF ", os2 := getTable tables "OS/2" }
  let f ← parseHead f0
  let fullName ← lookupName f 4
  let f := { f with FullName := fullName }
  let psName ← lookupName f 6
  let f := { f with PostscriptName := psName }
  let f ← parseCmap f (getTable f.tables "cmap")
  let f ← parseOS2 f
  let f ← parseHhea f (getTable f.tables "hhea")
  let f ← parseHmtx f (getTable f.tables "hmtx")
  let f ← parseMaxp f (getTable f.tables "maxp")
  let f ← parsePost f (getTable f.tables "post")
  let f ← parseGsub f
  let f ← parseGsubSmcp f
  let f ← parseGpos f
  return f

/-! Classic kern table parser (src/font.go, func (f *Font) parseKern).  The
main-package font carries its own state; only the fields parseKern writes
are modelled here (MFont). -/

/-- MFont carries the classic-kern state of the main-package Font type of
src/font.go: the pair count nKern and the raw pair table. -/
structure MFont where
  nKern : Nat := 0
  kernTable : List Nat := []
deriving DecidableEq, Repr, Inhabited

/-- parseKern mirrors Go func (f *Font) parseKern of src/font.go: version
at byte 0, subtable count at byte 2, subtable length at byte 6, coverage at
byte 8, pair count at byte 10, pair data from byte 14.  The Go length check
6*f.nKern != length-14 is over ints, so the subtraction is carried out in
Int here. -/
def parseKern (f : MFont) (kern : List Nat) : Except FontError MFont :=
  if kern.length = 0 then .ok f
  else if kern.length < 18 then .error "TTF kern data too short"
  else if u16 kern 0 ≠ 0 then .error "unsupported TTF kern version"
  else if u16 kern 2 ≠ 1 then .error "unsupported number of kern tables"
  else if u16 kern 8 ≠ 0x0001 then .error "unsupported kern coverage"
  else if (6 * u16 kern 10 : Int) ≠ (u16 kern 6 : Int) - 14 then .error "bad kern table length"
  else .ok { f with nKern := u16 kern 10, kernTable := kern.drop 14 }

/-! Token model, state and the layout scans (src/main.go). -/

/-- State mirrors Go type State of src/main.go (the back pointer to Imp is
omitted; nothing modelled here reads it).  Go float64 fields are modelled
as rationals. -/
structure State where
  font : Font
  size : ℚ := 0
  smallCaps : Bool := false
  ligatures : Bool := false
  lineHeight : ℚ := 0
  parSkip : ℚ := 0
  maxWidth : ℚ := 0
  yPos : ℚ := 0
  colStart : ℚ := 0

/-- Token mirrors the Go Token interface of src/main.go as a closed variant
type.  Go Macro is named cmdTok (macro is a Lean keyword).  The CanBreak
fields are Go interface values that may be nil, hence Option.  StateAction
carries an opaque state mutation. -/
inductive Token where
  | text (s : String)
  | space (raw : String)
  | cmdTok (name : String)
  | lineBreak
  | paragraphBreak
  | colBreak
  | canBreak (before noBreak after : Option Token)
  | setFont (font : Option Font) (size : Int)
  | setTextColor (c m y k : ℚ)
  | stateAction (act : State → State)

/-- StringToGlyphs mirrors Go func (s *State) StringToGlyphs. -/
def State.StringToGlyphs (s : State) (text : String) : List Nat :=
  let glyphs := s.font.StringToGlyphs text
  let glyphs := if s.smallCaps then s.font.SmallCaps glyphs else glyphs
  if s.ligatures then s.font.Ligatures glyphs else glyphs

/-- textWidth is the Text case of Go func GetWidth: per glyph the scaled
advance width plus, from the second glyph on, any nonzero kerning. -/
def textWidth (s : State) (glyphs : List Nat) : ℚ :=
  (List.range glyphs.length).foldl
    (fun w i =>
      let w := w + ((s.font.Scale (s.font.HMetric (glyphs.getD i 0)).Width 1000 : Int) : ℚ) / 1000 * s.size
      if 0 < i then
        let kern := s.font.Kerning 1000 (glyphs.getD (i - 1) 0) (glyphs.getD i 0)
        if kern ≠ 0 then w + (kern : ℚ) / 1000 * s.size else w
      else w) 0

/-- GetWidth mirrors Go func GetWidth of src/main.go.  It returns the width
together with the possibly mutated state (the Go version mutates s through
a pointer).  A nil Go token (possible for CanBreak.Before) is the none case
of getWidthOpt below. -/
def GetWidth (s : State) (t : Token) : ℚ × State :=
  match t with
  | .text str => (textWidth s (s.StringToGlyphs str), s)
  | .canBreak _ noBreak _ =>
    match noBreak with
    | some tk => GetWidth s tk
    | none => (0, s)
  | .space _ =>
    (((s.font.Scale (s.font.HMetric (s.font.Index 32)).Width 1000 : Int) : ℚ) / 1000 * s.size, s)
  | .setFont f? sz =>
    let s := match f? with | some f => { s with font := f } | none => s
    let s := if sz ≠ 0 then { s with size := (sz : ℚ) } else s
    (0, s)
  | .stateAction a => (0, a s)
  | _ => (0, s)

/-- getWidthOpt applies GetWidth to a possibly nil token; Go's GetWidth on a
nil interface value falls through every case and returns 0. -/
def getWidthOpt (s : State) : Option Token → ℚ × State
  | none => (0, s)
  | some t => GetWidth s t

/-- scanLoop is the forward scan of Go func (m *Imp) SplitLines
(src/main.go lines 79-97): starting at token index i with the running
width and the current break candidate breakPos (-1 when none), it applies
StateActions, stops on overflow, returns i for an explicit break, and
records a CanBreak as candidate exactly when width + width(before) is
strictly below the (possibly mutated) max width. -/
def scanLoop (s : State) (width : ℚ) (breakPos : Int) (i : Nat) : List Token → Int
  | [] => breakPos
  | t :: rest =>
    let s := match t with | .stateAction a => a s | _ => s
    let ws := GetWidth s t
    if width + ws.1 > ws.2.maxWidth then breakPos
    else
      let width := width + ws.1
      match t with
      | .lineBreak => (i : Int)
      | .paragraphBreak => (i : Int)
      | .canBreak before _ _ =>
        let wbs := getWidthOpt ws.2 before
        scanLoop wbs.2 width (if width + wbs.1 < wbs.2.maxWidth then (i : Int) else breakPos) (i + 1) rest
      | _ => scanLoop ws.2 width breakPos (i + 1) rest

/-- spacingScan is the justification scan of the PDF-emission loop in Go
func main (src/main.go lines 299-321): it walks the line, accumulating
width and counting Space tokens, and on LineBreak returns the word spacing
(s.MaxWidth - width) / numSpaces; a ParagraphBreak or the end of the
stream leaves the word spacing at 0. -/
def spacingScan (s : State) (width : ℚ) (numSpaces : Nat) : List Token → ℚ
  | [] => 0
  | t :: rest =>
    let ws := GetWidth s t
    match t with
    | .lineBreak => (ws.2.maxWidth - width) / (numSpaces : ℚ)
    | .paragraphBreak => 0
    | .space _ => spacingScan ws.2 (width + ws.1) (numSpaces + 1) rest
    | _ => spacingScan ws.2 (width + ws.1) numSpaces rest

/-- ratTrunc is the Go conversion int(x) applied to a float64 value:
truncation toward zero, here on an exact rational. -/
def ratTrunc (q : ℚ) : Int :=
  Int.tdiv q.num (q.den : Int)

/-- emitSpaceAdj is the justification part of the Space case of the
content-stream emission loop (src/main.go lines 341-349): after the space
glyph, if wordSpacing > 0, the integer -int(wordSpacing/size*1000) is
written into the TJ array; otherwise nothing is written. -/
def emitSpaceAdj (s : State) (wordSpacing : ℚ) : Option Int :=
  if wordSpacing > 0 then some (-(ratTrunc (wordSpacing / s.size * 1000))) else none

/-! Low-level PDF writer (src/imp/pdf/pdf.go).  The output is modelled as a
string and pos counts positions in it with the same measure
(String.length).  Go counts bytes; the two measures differ only on the
non-ASCII binary comment of WriteHeader, a constant offset that affects
neither side of the bookkeeping invariant (pos and the recorded offsets
are compared against the same output). -/

/-- PDFWriter mirrors Go type PDFWriter: the buffered sink (here the
accumulated output), the byte counter pos, the error latch and the xref
vector of object offsets. -/
structure PDFWriter where
  out : String := ""
  pos : Nat := 0
  err : Bool := false
  xref : List Nat := []
  inTJ : Bool := false
deriving DecidableEq, Repr, Inhabited

/-- WriteString mirrors Go func (w *PDFWriter) WriteString (func Write is
identical for the model): append and advance pos, unless the error latch
is set.  The model's sink never fails, so err is never set. -/
def WriteString (w : PDFWriter) (s : String) : PDFWriter :=
  if w.err then w else { w with out := w.out ++ s, pos := w.pos + s.length }

/-- NextID mirrors Go func (w *PDFWriter) NextID: append a zero offset and
return the new 1-based id. -/
def NextID (w : PDFWriter) : PDFWriter × Int :=
  ({ w with xref := w.xref ++ [0] }, (w.xref.length : Int) + 1)

/-- WriteObjectStart mirrors Go func (w *PDFWriter) WriteObjectStart:
reserve an id when id <= 0, record the current pos in xref[id-1], then
emit the object header line.  Go panics when 0 < id is out of range of
xref; List.set ignores such writes. -/
def WriteObjectStart (w : PDFWriter) (id : Int) : PDFWriter × Int :=
  let wi := if id ≤ 0 then NextID w else (w, id)
  let w2 := { wi.1 with xref := wi.1.xref.set (wi.2 - 1).toNat wi.1.pos }
  (WriteString w2 (toString wi.2 ++ " 0 obj\n"), wi.2)

/-- WriteObjectEnd mirrors Go func (w *PDFWriter) WriteObjectEnd. -/
def WriteObjectEnd (w : PDFWriter) : PDFWriter :=
  WriteString w "endobj\n"

/-- WriteObjectf mirrors Go func (w *PDFWriter) WriteObjectf; the formatted
body is taken as a ready-made string. -/
def WriteObjectf (w : PDFWriter) (id : Int) (body : String) : PDFWriter × Int :=
  let wi := WriteObjectStart w id
  let w2 := WriteString wi.1 body
  let w3 := WriteString w2 "\n"
  (WriteObjectEnd w3, wi.2)

/-- WriteStreamPlain mirrors Go func (w *PDFWriter) WriteStreamPlain. -/
def WriteStreamPlain (w : PDFWriter) (s : String) : PDFWriter :=
  let w := WriteString w ("<< /Length " ++ toString s.length ++ " >>\n")
  let w := WriteString w "stream\n"
  let w := WriteString w s
  WriteString w "\nendstream\n"

/-- WriteHeader mirrors Go func (w *PDFWriter) WriteHeader. -/
def WriteHeader (w : PDFWriter) : PDFWriter :=
  WriteString (WriteString w "%PDF-1.4\n") "%âãÏÓ\n"

/-- PDFOp enumerates the writer operations a client can interleave before
an object is started; runOp dispatches to the corresponding method. -/
inductive PDFOp where
  | writeString (s : String)
  | nextID
  | writeObjectStart (id : Int)
  | writeObjectEnd
  | writeObjectf (id : Int) (body : String)
  | writeStreamPlain (s : String)
  | writeHeader
deriving DecidableEq, Repr

/-- runOp applies one writer operation. -/
def runOp (w : PDFWriter) : PDFOp → PDFWriter
  | .writeString s => WriteString w s
  | .nextID => (NextID w).1
  | .writeObjectStart id => (WriteObjectStart w id).1
  | .writeObjectEnd => WriteObjectEnd w
  | .writeObjectf id b => (WriteObjectf w id b).1
  | .writeStreamPlain s => WriteStreamPlain w s
  | .writeHeader => WriteHeader w

/-- runOps runs a sequence of writer operations from a fresh writer
(Go NewPDFWriter). -/
def runOps (ops : List PDFOp) : PDFWriter :=
  ops.foldl runOp {}

/-! Specification-side definitions.  These follow the wording of the spec
(section 4.B, glyph lookup; section 4.C, kerning) and are compared against
the source-derived definitions above. -/

/-- containsSeg states that code c lies in the segment: start <= c <= end. -/
def containsSeg (seg : cm) (c : Nat) : Prop :=
  seg.start ≤ c ∧ c ≤ seg.stop

instance (seg : cm) (c : Nat) : Decidable (containsSeg seg c) := by
  unfold containsSeg; infer_instance

/-- findSeg is the spec's matching segment h with start <= c <= end,
located by a straight linear search (the reference semantics the binary
search must agree with). -/
def findSeg : List cm → Nat → Option Nat
  | [], _ => none
  | seg :: rest, c => if containsSeg seg c then some 0 else (findSeg rest c).map (· + 1)

/-- indexFmt4Spec is the spec's format-4 cmap lookup: find the segment
containing c and apply the delta or idRangeOffset rule; return 0 (notdef)
when no segment contains c. -/
def indexFmt4Spec (f : Font) (c : Nat) : Nat :=
  match findSeg f.cm c with
  | some h => segValue f h c
  | none => 0

/-- cmWellFormed states that every segment has start <= end. -/
def cmWellFormed (cms : List cm) : Prop :=
  ∀ i < cms.length, (cms.getD i default).start ≤ (cms.getD i default).stop

instance (cms : List cm) : Decidable (cmWellFormed cms) := by
  unfold cmWellFormed; infer_instance

/-- cmSorted is the spec's data-model invariant: the segments cover
disjoint ranges in strictly increasing order (each segment ends strictly
before the next begins). -/
def cmSorted (cms : List cm) : Prop :=
  ∀ j < cms.length, ∀ i < j, (cms.getD i default).stop < (cms.getD j default).start

instance (cms : List cm) : Decidable (cmSorted cms) := by
  unfold cmSorted; infer_instance

/-- segBounded states that every glyph value a segment can produce is below
the glyph count; well-formed real fonts satisfy this, but the parser never
checks it. -/
def segBounded (f : Font) : Prop :=
  ∀ h < f.cm.length, ∀ c ≤ (f.cm.getD h default).stop,
    (f.cm.getD h default).start ≤ c → segValue f h c < f.nGlyph

instance (f : Font) : Decidable (segBounded f) := by
  unfold segBounded; infer_instance

/-- pairKern is the spec's pair-kerning lookup: the summed value of the
pair records for (a, b), 0 when none exists. -/
def pairKern (f : Font) (a b : Nat) : Int :=
  f.kern.foldl (fun acc k => if k.First = a ∧ k.Second = b then acc + k.Horiz else acc) 0

/-- classKernVal is the spec's class-kerning lookup: 0 when the font has no
class kerning or the class arrays do not cover a or b. -/
def classKernVal (f : Font) (a b : Nat) : Int :=
  match f.classKern with
  | some ck => ck.Kern a b
  | none => 0

/-! Concrete font fixtures: complete SFNT byte buffers accepted by Parse.
The directory holds head, name, cmap, OS/2, hhea, hmtx, maxp and post
(plus GSUB for the ligature fixture). -/

/-- b16 encodes a value below 2^16 in big-endian bytes. -/
def b16 (v : Nat) : List Nat :=
  [v / 256 % 256, v % 256]

/-- b32 encodes a value below 2^32 in big-endian bytes. -/
def b32 (v : Nat) : List Nat :=
  [v / 16777216 % 256, v / 65536 % 256, v / 256 % 256, v % 256]

/-- dirEntry is one 16-byte table directory entry (tag, checksum, offset,
length). -/
def dirEntry (tag : List Nat) (offset length : Nat) : List Nat :=
  tag ++ b32 0 ++ b32 offset ++ b32 length

/-- headT is a minimal head table: version 1.0, unitsPerEm 1000, zero
bounding box. -/
def headT : List Nat :=
  b32 0x00010000 ++ List.replicate 14 0 ++ b16 1000 ++ List.replicate 16 0 ++
    b16 0 ++ b16 0 ++ b16 0 ++ b16 0 ++ List.replicate 10 0

/-- nameT is an empty name table (format 0, no records). -/
def nameT : List Nat :=
  b16 0 ++ b16 0 ++ b16 0

/-- os2T is a minimal OS/2 table: version 0, ascender 800, descender -200. -/
def os2T : List Nat :=
  List.replicate 68 0 ++ b16 800 ++ b16 65336

/-- hheaT is a minimal hhea table with numberOfHMetrics 1. -/
def hheaT : List Nat :=
  List.replicate 34 0 ++ b16 1

/-- hmtxT holds one horizontal metric: advance 1000, lsb 0. -/
def hmtxT : List Nat :=
  b16 1000 ++ b16 0

/-- maxpT n is a minimal maxp table with numGlyphs n. -/
def maxpT (n : Nat) : List Nat :=
  b32 0x00010000 ++ b16 n

/-- postT is a minimal post table with italic angle 0. -/
def postT : List Nat :=
  List.replicate 16 0

/-- cmapT2 is a format-4 cmap with the single segment [65, 65], idDelta 0,
idRangeOffset 0: it maps the code 65 to the glyph 65. -/
def cmapT2 : List Nat :=
  b16 0 ++ b16 1 ++ b16 0 ++ b16 3 ++ b32 12 ++
    b16 4 ++ b16 24 ++ b16 0 ++ b16 2 ++ b16 0 ++ b16 0 ++ b16 0 ++
    b16 65 ++ b16 0 ++ b16 65 ++ b16 0 ++ b16 0

/-- cmapT3 is a format-4 cmap with the single segment [65, 65], idDelta 0,
idRangeOffset 2, followed by the glyph id array bytes 0 5 0 7. -/
def cmapT3 : List Nat :=
  b16 0 ++ b16 1 ++ b16 0 ++ b16 3 ++ b32 12 ++
    b16 4 ++ b16 28 ++ b16 0 ++ b16 2 ++ b16 0 ++ b16 0 ++ b16 0 ++
    b16 65 ++ b16 0 ++ b16 65 ++ b16 0 ++ b16 2 ++ b16 5 ++ b16 7

/-- gsubT is a GSUB table whose DFLT script carries a liga feature with the
single ligature rule (glyph 1, glyph 2) -> glyph 1. -/
def gsubT : List Nat :=
  b32 0x00010000 ++ b16 10 ++ b16 30 ++ b16 44 ++
    b16 1 ++ [68, 70, 76, 84] ++ b16 8 ++
    b16 4 ++ b16 0 ++
    b16 0 ++ b16 0xFFFF ++ b16 1 ++ b16 0 ++
    b16 1 ++ [108, 105, 103, 97] ++ b16 8 ++
    b16 0 ++ b16 1 ++ b16 0 ++
    b16 1 ++ b16 4 ++
    b16 4 ++ b16 0 ++ b16 1 ++ b16 8 ++
    b16 1 ++ b16 12 ++ b16 1 ++ b16 18 ++ b16 0 ++ b16 0 ++
    b16 1 ++ b16 1 ++ b16 1 ++
    b16 1 ++ b16 4 ++
    b16 1 ++ b16 2 ++ b16 2

/-- fix2 is a complete SFNT buffer accepted by Parse whose cmap maps the
code 65 to the glyph 65 while maxp declares a single glyph. -/
def fix2 : List Nat :=
  b32 0x00010000 ++ b16 8 ++ b16 0 ++ b16 0 ++ b16 0 ++
    dirEntry [104, 101, 97, 100] 140 54 ++
    dirEntry [110, 97, 109, 101] 194 6 ++
    dirEntry [99, 109, 97, 112] 200 36 ++
    dirEntry [79, 83, 47, 50] 236 72 ++
    dirEntry [104, 104, 101, 97] 308 36 ++
    dirEntry [104, 109, 116, 120] 344 4 ++
    dirEntry [109, 97, 120, 112] 348 6 ++
    dirEntry [112, 111, 115, 116] 354 16 ++
    headT ++ nameT ++ cmapT2 ++ os2T ++ hheaT ++ hmtxT ++ maxpT 1 ++ postT

/-- font2 is the font Parse extracts from fix2. -/
def font2 : Font :=
  (Parse fix2).toOption.getD {}

/-- fix3 is a complete SFNT buffer accepted by Parse whose single cmap
segment has a nonzero idRangeOffset, so that Index and Index2 read
different glyph id array entries. -/
def fix3 : List Nat :=
  b32 0x00010000 ++ b16 8 ++ b16 0 ++ b16 0 ++ b16 0 ++
    dirEntry [104, 101, 97, 100] 140 54 ++
    dirEntry [110, 97, 109, 101] 194 6 ++
    dirEntry [99, 109, 97, 112] 200 40 ++
    dirEntry [79, 83, 47, 50] 240 72 ++
    dirEntry [104, 104, 101, 97] 312 36 ++
    dirEntry [104, 109, 116, 120] 348 4 ++
    dirEntry [109, 97, 120, 112] 352 6 ++
    dirEntry [112, 111, 115, 116] 358 16 ++
    headT ++ nameT ++ cmapT3 ++ os2T ++ hheaT ++ hmtxT ++ maxpT 16 ++ postT

/-- font3 is the font Parse extracts from fix3. -/
def font3 : Font :=
  (Parse fix3).toOption.getD {}

/-- fix5 is a complete SFNT buffer accepted by Parse carrying the GSUB
table gsubT, so that the parsed ligature rule set is (1, 2) -> 1. -/
def fix5 : List Nat :=
  b32 0x00010000 ++ b16 9 ++ b16 0 ++ b16 0 ++ b16 0 ++
    dirEntry [104, 101, 97, 100] 156 54 ++
    dirEntry [110, 97, 109, 101] 210 6 ++
    dirEntry [99, 109, 97, 112] 216 36 ++
    dirEntry [79, 83, 47, 50] 252 72 ++
    dirEntry [104, 104, 101, 97] 324 36 ++
    dirEntry [104, 109, 116, 120] 360 4 ++
    dirEntry [109, 97, 120, 112] 364 6 ++
    dirEntry [112, 111, 115, 116] 370 16 ++
    dirEntry [71, 83, 85, 66] 386 84 ++
    headT ++ nameT ++ cmapT2 ++ os2T ++ hheaT ++ hmtxT ++ maxpT 3 ++ postT ++ gsubT

/-- font5 is the font Parse extracts from fix5. -/
def font5 : Font :=
  (Parse fix5).toOption.getD {}

/-- c5wfont carries a single benign ligature rule (1, 2) -> 3 whose
replacement glyph occurs in no rule pattern. -/
def c5wfont : Font :=
  { liga := [{ Old := [1, 2], New := 3 }] }

/-! Helper lemmas on the linear reference searches. -/

theorem findSeg_eq_some (cms : List cm) (c : Nat) (h : Nat)
    (hlt : h < cms.length) (hc : containsSeg (cms.getD h default) c)
    (hmin : ∀ k < h, ¬ containsSeg (cms.getD k default) c) :
    findSeg cms c = some h := by
  induction cms generalizing h with
  | nil => simp at hlt
  | cons seg rest ih =>
    cases h with
    | zero =>
      simp only [List.getD_cons_zero] at hc
      simp [findSeg, hc]
    | succ h' =>
      have h0 : ¬ containsSeg seg c := by
        have := hmin 0 (Nat.succ_pos _)
        simpa using this
      have hrest : findSeg rest c = some h' := by
        apply ih
        · simpa using hlt
        · simpa using hc
        · intro k hk
          have := hmin (k + 1) (by omega)
          simpa using this
      simp [findSeg, h0, hrest]

theorem findSeg_eq_none (cms : List cm) (c : Nat)
    (hnone : ∀ k < cms.length, ¬ containsSeg (cms.getD k default) c) :
    findSeg cms c = none := by
  induction cms with
  | nil => rfl
  | cons seg rest ih =>
    have h0 : ¬ containsSeg seg c := by
      have := hnone 0 (by simp)
      simpa using this
    have hrest : findSeg rest c = none := by
      apply ih
      intro k hk
      have := hnone (k + 1) (by simpa using hk)
      simpa using this
    simp [findSeg, h0, hrest]

theorem firstStopGE_eq_some (cms : List cm) (c : Nat) (s : Nat)
    (hlt : s < cms.length) (hc : c ≤ (cms.getD s default).stop)
    (hmin : ∀ k < s, (cms.getD k default).stop < c) :
    firstStopGE cms c = some s := by
  induction cms generalizing s with
  | nil => simp at hlt
  | cons seg rest ih =>
    cases s with
    | zero =>
      simp only [List.getD_cons_zero] at hc
      simp [firstStopGE, hc]
    | succ s' =>
      have h0 : ¬ c ≤ seg.stop := by
        have := hmin 0 (Nat.succ_pos _)
        simp only [List.getD_cons_zero] at this
        omega
      have hrest : firstStopGE rest c = some s' := by
        apply ih
        · simpa using hlt
        · simpa using hc
        · intro k hk
          have := hmin (k + 1) (by omega)
          simpa using this
      simp [firstStopGE, h0, hrest]

theorem firstStopGE_char (cms : List cm) (c : Nat) (s : Nat)
    (hfs : firstStopGE cms c = some s) :
    s < cms.length ∧ c ≤ (cms.getD s default).stop ∧
      ∀ k < s, (cms.getD k default).stop < c := by
  induction cms generalizing s with
  | nil => simp [firstStopGE] at hfs
  | cons seg rest ih =>
    by_cases h0 : c ≤ seg.stop
    · simp only [firstStopGE, if_pos h0, Option.some.injEq] at hfs
      subst hfs
      exact ⟨by simp, by simpa using h0, by omega⟩
    · simp only [firstStopGE, if_neg h0, Option.map_eq_some'] at hfs
      obtain ⟨s', hs', rfl⟩ := hfs
      obtain ⟨ih1, ih2, ih3⟩ := ih s' hs'
      refine ⟨by simpa using ih1, by simpa using ih2, ?_⟩
      intro k hk
      cases k with
      | zero => simp only [List.getD_cons_zero]; omega
      | succ k' =>
        have := ih3 k' (by omega)
        simpa using this

/-! Helper lemmas on the binary search loop of Index. -/

theorem indexLoop_eq_segValue (f : Font) (c : Nat)
    (hwf : cmWellFormed f.cm) (hs : cmSorted f.cm)
    (m : Nat) (hm : m < f.cm.length) (hc : containsSeg (f.cm.getD m default) c) :
    ∀ fuel i j, i ≤ m → m < j → j ≤ f.cm.length → j - i ≤ fuel →
      indexLoop f c fuel i j = segValue f m c := by
  intro fuel
  induction fuel with
  | zero => intro i j h1 h2 h3 h4; omega
  | succ fuel ih =>
    intro i j h1 h2 h3 h4
    have hij : i < j := by omega
    simp only [indexLoop, if_pos hij]
    set h := i + (j - i) / 2 with hh
    have hhj : h < j := by omega
    have hhi : i ≤ h := by omega
    have hhl : h < f.cm.length := by omega
    obtain ⟨hc1, hc2⟩ := hc
    by_cases hcs : c < (f.cm.getD h default).start
    · rw [if_pos hcs]
      have hmh : m < h := by
        rcases Nat.lt_trichotomy h m with hlt | heq | hgt
        · exfalso
          have hdisj := hs m hm h hlt
          have hwfh := hwf h hhl
          omega
        · exfalso
          rw [heq] at hcs
          omega
        · exact hgt
      exact ih i h h1 hmh (by omega) (by omega)
    · rw [if_neg hcs]
      by_cases hce : (f.cm.getD h default).stop < c
      · rw [if_pos hce]
        have hmh : h < m := by
          rcases Nat.lt_trichotomy m h with hlt | heq | hgt
          · exfalso
            have hdisj := hs h hhl m hlt
            have hwfh := hwf h hhl
            omega
          · exfalso
            rw [← heq] at hce
            omega
          · exact hgt
        exact ih (h + 1) j (by omega) h2 h3 (by omega)
      · rw [if_neg hce]
        have hhm : h = m := by
          rcases Nat.lt_trichotomy h m with hlt | heq | hgt
          · exfalso; have := hs m hm h hlt; omega
          · exact heq
          · exfalso; have := hs h hhl m hgt; omega
        rw [hhm]

theorem indexLoop_eq_zero (f : Font) (c : Nat)
    (hnone : ∀ k < f.cm.length, ¬ containsSeg (f.cm.getD k default) c) :
    ∀ fuel i j, j ≤ f.cm.length → indexLoop f c fuel i j = 0 := by
  intro fuel
  induction fuel with
  | zero => intro i j hj; rfl
  | succ fuel ih =>
    intro i j hj
    simp only [indexLoop]
    by_cases hij : i < j
    · rw [if_pos hij]
      set h := i + (j - i) / 2 with hh
      have hhl : h < f.cm.length := by omega
      have hnc := hnone h hhl
      by_cases hcs : c < (f.cm.getD h default).start
      · rw [if_pos hcs]
        exact ih i h (by omega)
      · rw [if_neg hcs]
        have hce : (f.cm.getD h default).stop < c := by
          by_contra hx
          exact hnc ⟨by omega, by omega⟩
        rw [if_pos hce]
        exact ih (h + 1) j hj
    · rw [if_neg hij]

theorem indexLoop_lt (f : Font) (c : Nat) (hb : segBounded f) (hpos : 0 < f.nGlyph) :
    ∀ fuel i j, j ≤ f.cm.length → indexLoop f c fuel i j < f.nGlyph := by
  intro fuel
  induction fuel with
  | zero => intro i j hj; exact hpos
  | succ fuel ih =>
    intro i j hj
    simp only [indexLoop]
    by_cases hij : i < j
    · rw [if_pos hij]
      set h := i + (j - i) / 2 with hh
      have hhl : h < f.cm.length := by omega
      by_cases hcs : c < (f.cm.getD h default).start
      · rw [if_pos hcs]
        exact ih i h (by omega)
      · rw [if_neg hcs]
        by_cases hce : (f.cm.getD h default).stop < c
        · rw [if_pos hce]
          exact ih (h + 1) j hj
        · rw [if_neg hce]
          exact hb h hhl c (by omega) (by omega)
    · rw [if_neg hij]
      exact hpos

/-! Claim C1: Index performs the format-4 cmap lookup of the spec. -/

/-- C1: for a font whose cmap segments satisfy the spec's data-model
invariant (disjoint ranges in strictly increasing order), Index performs
the spec's format-4 lookup: it finds the segment h with start <= c <= end
and returns (c + idDelta[h]) mod 2^16 when idRangeOffset[h] = 0, the uint16
read from glyphIdArray at idRangeOffset[h] + 2*(h - nSegments + (c - start[h]))
otherwise, and 0 when no segment contains c. -/
theorem c1_index_matches_spec (f : Font) (hwf : cmWellFormed f.cm) (hs : cmSorted f.cm)
    (c : Nat) : f.Index c = indexFmt4Spec f c := by
  by_cases hex : ∃ m, m < f.cm.length ∧ containsSeg (f.cm.getD m default) c
  · obtain ⟨m, hm, hc⟩ := hex
    have hmin : ∀ k < m, ¬ containsSeg (f.cm.getD k default) c := by
      intro k hk hcont
      have := hs m hm k hk
      have h1 := hcont.2
      have h2 := hc.1
      omega
    have hfind : findSeg f.cm c = some m := findSeg_eq_some _ _ _ hm hc hmin
    unfold Font.Index indexFmt4Spec
    rw [hfind]
    exact indexLoop_eq_segValue f c hwf hs m hm hc _ 0 _ (by omega) hm (le_refl _) (by omega)
  · push_neg at hex
    have hnone : ∀ k < f.cm.length, ¬ containsSeg (f.cm.getD k default) c := hex
    have hfind : findSeg f.cm c = none := findSeg_eq_none _ _ hnone
    unfold Font.Index indexFmt4Spec
    rw [hfind]
    exact indexLoop_eq_zero f c hnone _ 0 _ (le_refl _)

/-- Witness for C1 at the parsed fixture font3 and the code 65 (which
resolves through the nonzero idRangeOffset branch). -/
theorem c1_index_matches_spec_witness :
    cmWellFormed font3.cm ∧ cmSorted font3.cm ∧
      font3.Index 65 = indexFmt4Spec font3 65 :=
  ⟨by decide, by decide, c1_index_matches_spec font3 (by decide) (by decide) 65⟩

/-! Claim C2: Index against NumGlyphs. -/

/-- C2 counterexample: fix2 is accepted by Parse in full, maps the rune 65
through a delta-only segment to the glyph 65, yet declares a single glyph,
so Index 65 is not below NumGlyphs. -/
theorem c2_counterexample :
    (Parse fix2).isOk = true ∧ font2.Index 65 = 65 ∧ font2.NumGlyphs = 1 ∧
      ¬ font2.Index 65 < font2.NumGlyphs := by
  decide

/-- C2 as amended: parsing alone does not bound the cmap against maxp, but
for every font whose segments only produce glyph values below the glyph
count (as well-formed fonts do), every lookup is below NumGlyphs, and a
rune contained in no segment maps to glyph 0. -/
theorem c2_index_lt_numGlyphs (f : Font) (hb : segBounded f) (hpos : 0 < f.nGlyph)
    (c : Nat) :
    f.Index c < f.NumGlyphs ∧
      ((∀ k < f.cm.length, ¬ containsSeg (f.cm.getD k default) c) → f.Index c = 0) := by
  constructor
  · exact indexLoop_lt f c hb hpos _ 0 _ (le_refl _)
  · intro hnone
    exact indexLoop_eq_zero f c hnone _ 0 _ (le_refl _)

/-- Witness for C2 as amended, at the parsed fixture font3 (16 glyphs, all
segment values below 16) and the codes 65 (mapped) and 700 (unmapped). -/
theorem c2_index_lt_numGlyphs_witness :
    segBounded font3 ∧ 0 < font3.nGlyph ∧ font3.Index 65 < font3.NumGlyphs ∧
      font3.Index 700 = 0 :=
  ⟨by decide, by decide, (c2_index_lt_numGlyphs font3 (by decide) (by decide) 65).1,
    (c2_index_lt_numGlyphs font3 (by decide) (by decide) 700).2 (by decide)⟩

/-! Claim C3: Index versus Index2. -/

/-- C3 counterexample: fix3 is accepted by Parse in full, and on the rune 65
(resolved through a segment with nonzero idRangeOffset) the two lookup
routines disagree: Index reads the glyph id array at offset
idRangeOffset + 2*(h - nSegments + (c - start)) and returns 5, while Index2
reads at idRangeOffset + 2*(h + (c - start)) and returns 7. -/
theorem c3_counterexample :
    (Parse fix3).isOk = true ∧ font3.Index 65 = 5 ∧ font3.Index2 65 = 7 ∧
      font3.Index 65 ≠ font3.Index2 65 := by
  decide

/-- C3 as amended: the two routines agree on every valid code point for
fonts whose segments satisfy the data-model invariant and all carry
idRangeOffset = 0 (the delta-only form); with a nonzero idRangeOffset they
diverge, as the counterexample shows. -/
theorem c3_offset_zero_agreement (f : Font) (hwf : cmWellFormed f.cm) (hs : cmSorted f.cm)
    (hall0 : ∀ i < f.cm.length, (f.cm.getD i default).offset = 0)
    (c : Nat) (_hc : c ≤ 0x10FFFF) :
    f.Index c = f.Index2 c := by
  by_cases hex : ∃ m, m < f.cm.length ∧ containsSeg (f.cm.getD m default) c
  · obtain ⟨m, hm, hcont⟩ := hex
    have hidx : f.Index c = segValue f m c := by
      unfold Font.Index
      exact indexLoop_eq_segValue f c hwf hs m hm hcont _ 0 _ (by omega) hm (le_refl _) (by omega)
    have hfs : firstStopGE f.cm c = some m := by
      apply firstStopGE_eq_some _ _ _ hm hcont.2
      intro k hk
      have := hs m hm k hk
      have := hcont.1
      omega
    have hoff := hall0 m hm
    have hstart := hcont.1
    rw [hidx]
    simp only [Font.Index2, hfs, segValue]
    rw [if_pos hoff]
    rw [if_neg (by omega : ¬ (f.cm.getD m default).start > c)]
    by_cases hd : (f.cm.getD m default).delta = 0
    · rw [if_neg (not_not_intro hd), if_neg (not_not_intro hoff)]
      omega
    · rw [if_pos hd, if_neg (not_not_intro hoff)]
      omega
  · push_neg at hex
    have hidx : f.Index c = 0 := by
      unfold Font.Index
      exact indexLoop_eq_zero f c hex _ 0 _ (le_refl _)
    rw [hidx]
    cases hfs : firstStopGE f.cm c with
    | none => simp only [Font.Index2, hfs]
    | some s =>
      obtain ⟨hsl, hcs, hmin⟩ := firstStopGE_char _ _ _ hfs
      have hst : (f.cm.getD s default).start > c := by
        by_contra hx
        exact hex s hsl ⟨by omega, hcs⟩
      simp only [Font.Index2, hfs]
      rw [if_pos hst]

/-- Witness for C3 as amended, at the parsed fixture font2 (its single
segment is delta-only) and the code 65. -/
theorem c3_offset_zero_agreement_witness :
    cmWellFormed font2.cm ∧ cmSorted font2.cm ∧
      (∀ i < font2.cm.length, (font2.cm.getD i default).offset = 0) ∧
      font2.Index 65 = font2.Index2 65 :=
  ⟨by decide, by decide, by decide,
    c3_offset_zero_agreement font2 (by decide) (by decide) (by decide) 65 (by decide)⟩

/-! Claim C5: idempotence of the ligature substitution. -/

theorem ligaMatchAt_iff (glyphs : List Nat) (i : Nat) (l : Ligature) :
    ligaMatchAt glyphs i l = true ↔
      i + l.Old.length ≤ glyphs.length ∧
        ∀ t < l.Old.length, glyphs.getD (i + t) 0 = l.Old.getD t 0 := by
  unfold ligaMatchAt
  rw [Bool.and_eq_true, decide_eq_true_eq, List.all_eq_true]
  constructor
  · rintro ⟨h1, h2⟩
    refine ⟨h1, fun t ht => ?_⟩
    have := h2 t (List.mem_range.mpr ht)
    exact beq_iff_eq.mp this
  · rintro ⟨h1, h2⟩
    refine ⟨h1, fun t ht => ?_⟩
    exact beq_iff_eq.mpr (h2 t (List.mem_range.mp ht))

theorem ligaMatchAt_false_of_len (glyphs : List Nat) (i : Nat) (l : Ligature)
    (hne : l.Old ≠ []) (hi : glyphs.length ≤ i) : ligaMatchAt glyphs i l = false := by
  rw [Bool.eq_false_iff]
  intro h
  have h1 := ((ligaMatchAt_iff _ _ _).mp h).1
  have h2 : 0 < l.Old.length := List.length_pos.mpr hne
  omega

/-- replace_eq rewrites the splice performed by ligaLoop into take/cons/drop
form (for a nonempty matched pattern). -/
theorem replace_eq (g : List Nat) (i k a : Nat) (hi : i < g.length) (hk : 1 ≤ k) :
    ((g.set i a).take (i + 1)) ++ ((g.set i a).drop (i + k)) =
      g.take i ++ a :: g.drop (i + k) := by
  rw [List.drop_set_of_lt a g (by omega : i < i + k)]
  have htake : (g.set i a).take (i + 1) = g.take i ++ [a] := by
    rw [List.set_eq_take_cons_drop a hi]
    rw [List.take_append_eq_append_take]
    have hlen : (g.take i).length = i := List.length_take_of_le (by omega)
    rw [List.take_of_length_le (by omega)]
    congr 1
    rw [hlen]
    simp
  rw [htake]
  simp

/-- getD on the spliced list: positions strictly before the replacement
index read the original list. -/
theorem replace_getD_lt (g : List Nat) (i k a p : Nat) (hi : i < g.length) (hp : p < i) :
    (g.take i ++ a :: g.drop (i + k)).getD p 0 = g.getD p 0 := by
  have hlen : (g.take i).length = i := List.length_take_of_le (by omega)
  rw [List.getD_eq_getElem?_getD, List.getD_eq_getElem?_getD]
  rw [List.getElem?_append_left (by omega)]
  rw [List.getElem?_take_of_lt hp]

/-- getD on the spliced list: the replacement index itself reads the new
glyph. -/
theorem replace_getD_eq (g : List Nat) (i k a : Nat) (hi : i < g.length) :
    (g.take i ++ a :: g.drop (i + k)).getD i 0 = a := by
  have hlen : (g.take i).length = i := List.length_take_of_le (by omega)
  rw [List.getD_eq_getElem?_getD]
  rw [List.getElem?_append_right (by omega)]
  simp [hlen]

/-- noMatch_replace: after one replacement at position i, no rule matches
at any position up to i, provided no rule's replacement glyph occurs in any
rule's pattern. -/
theorem noMatch_replace (rules : List Ligature)
    (hd : ∀ l ∈ rules, ∀ l' ∈ rules, l.New ∉ l'.Old)
    (hlen : ∀ l ∈ rules, l.Old ≠ [])
    (g : List Nat) (i : Nat) (l : Ligature) (hl : l ∈ rules)
    (hP : ∀ j < i, ∀ l' ∈ rules, ligaMatchAt g j l' = false)
    (hi : i < g.length) :
    ∀ j < i + 1, ∀ l' ∈ rules,
      ligaMatchAt (g.take i ++ l.New :: g.drop (i + l.Old.length)) j l' = false := by
  intro j hj l' hl'
  rw [Bool.eq_false_iff]
  intro hmt
  obtain ⟨hb, hpt⟩ := (ligaMatchAt_iff _ _ _).mp hmt
  have hk' : 0 < l'.Old.length := List.length_pos.mpr (hlen l' hl')
  by_cases hcross : j + l'.Old.length ≤ i
  · have hjlt : j < i := by omega
    have hmg : ligaMatchAt g j l' = true := by
      rw [ligaMatchAt_iff]
      refine ⟨by omega, fun t ht => ?_⟩
      have := hpt t ht
      rwa [replace_getD_lt g i l.Old.length l.New (j + t) hi (by omega)] at this
    have := hP j hjlt l' hl'
    rw [this] at hmg
    exact Bool.false_ne_true hmg
  · have hti : i - j < l'.Old.length := by omega
    have := hpt (i - j) hti
    rw [show j + (i - j) = i by omega] at this
    rw [replace_getD_eq g i l.Old.length l.New hi] at this
    have hmem : l.New ∈ l'.Old := by
      rw [this, List.getD_eq_getElem l'.Old 0 hti]
      exact List.getElem_mem hti
    exact hd l hl l' hl' hmem

/-- ligaLoop_noMatch: under the disjointness condition, the glyph list
produced by a full ligaLoop run contains no match of any rule. -/
theorem ligaLoop_noMatch (rules : List Ligature)
    (hd : ∀ l ∈ rules, ∀ l' ∈ rules, l.New ∉ l'.Old)
    (hlen : ∀ l ∈ rules, l.Old ≠ []) :
    ∀ fuel i g, (∀ j < i, ∀ l' ∈ rules, ligaMatchAt g j l' = false) →
      g.length < i + fuel →
      ∀ j, ∀ l' ∈ rules, ligaMatchAt (ligaLoop rules fuel i g) j l' = false := by
  intro fuel
  induction fuel with
  | zero =>
    intro i g hP hf j l' hl'
    show ligaMatchAt g j l' = false
    by_cases hj : j < i
    · exact hP j hj l' hl'
    · exact ligaMatchAt_false_of_len g j l' (hlen l' hl') (by omega)
  | succ fuel ih =>
    intro i g hP hf j l' hl'
    simp only [ligaLoop]
    by_cases hig : i < g.length
    · rw [if_pos hig]
      cases hfind : rules.find? (fun l => ligaMatchAt g i l) with
      | none =>
        have hP' : ∀ j' < i + 1, ∀ l'' ∈ rules, ligaMatchAt g j' l'' = false := by
          intro j' hj' l'' hl''
          by_cases hcase : j' < i
          · exact hP j' hcase l'' hl''
          · have hji : j' = i := by omega
            subst hji
            have := List.find?_eq_none.mp hfind l'' hl''
            simpa using this
        exact ih (i + 1) g hP' (by omega) j l' hl'
      | some lr =>
        have hlr : lr ∈ rules := List.mem_of_find?_eq_some hfind
        have hkr : 1 ≤ lr.Old.length := List.length_pos.mpr (hlen lr hlr)
        dsimp only
        rw [replace_eq g i lr.Old.length lr.New hig hkr]
        have hP' := noMatch_replace rules hd hlen g i lr hlr hP hig
        have hlenE : (g.take i ++ lr.New :: g.drop (i + lr.Old.length)).length ≤ g.length := by
          simp [List.length_take]
          omega
        exact ih (i + 1) _ hP' (by omega) j l' hl'
    · rw [if_neg hig]
      by_cases hj : j < i
      · exact hP j hj l' hl'
      · exact ligaMatchAt_false_of_len g j l' (hlen l' hl') (by omega)

/-- ligaLoop_id: a glyph list without any rule match is returned unchanged. -/
theorem ligaLoop_id (rules : List Ligature) (g : List Nat)
    (hnm : ∀ j, ∀ l ∈ rules, ligaMatchAt g j l = false) :
    ∀ fuel i, ligaLoop rules fuel i g = g := by
  intro fuel
  induction fuel with
  | zero => intro i; rfl
  | succ fuel ih =>
    intro i
    simp only [ligaLoop]
    by_cases hig : i < g.length
    · rw [if_pos hig]
      have hfind : rules.find? (fun l => ligaMatchAt g i l) = none :=
        List.find?_eq_none.mpr (fun l hl => by simp [hnm i l hl])
      rw [hfind]
      exact ih (i + 1)
    · rw [if_neg hig]

/-- C5 counterexample: fix5 parses with the single ligature rule
(1, 2) -> 1 (its replacement glyph occurs in its own pattern); on the glyph
sequence 1 2 2 one application yields 1 2, a second application yields 1,
so applying Ligatures twice differs from applying it once. -/
theorem c5_counterexample :
    (Parse fix5).isOk = true ∧ font5.liga = [{ Old := [1, 2], New := 1 }] ∧
      font5.Ligatures [1, 2, 2] = [1, 2] ∧
      font5.Ligatures (font5.Ligatures [1, 2, 2]) = [1] ∧
      font5.Ligatures (font5.Ligatures [1, 2, 2]) ≠ font5.Ligatures [1, 2, 2] := by
  decide

/-- C5 as amended: Ligatures is idempotent for every rule set in which no
rule's replacement glyph occurs in any rule's component pattern and no
pattern is empty (the parser always yields nonempty patterns); the
counterexample shows idempotence fails without the first condition. -/
theorem c5_ligatures_idempotent (f : Font)
    (hd : ∀ l ∈ f.liga, ∀ l' ∈ f.liga, l.New ∉ l'.Old)
    (hlen : ∀ l ∈ f.liga, l.Old ≠ [])
    (g : List Nat) :
    f.Ligatures (f.Ligatures g) = f.Ligatures g := by
  unfold Font.Ligatures
  by_cases hl : f.liga.length = 0
  · simp only [if_pos hl]
  · simp only [if_neg hl]
    have hnm : ∀ j, ∀ l' ∈ f.liga, ligaMatchAt (ligaLoop f.liga (g.length + 1) 0 g) j l' = false :=
      ligaLoop_noMatch f.liga hd hlen (g.length + 1) 0 g
        (fun j hj => absurd hj (Nat.not_lt_zero j)) (by omega)
    exact ligaLoop_id f.liga _ hnm _ 0

/-- Witness for C5 as amended: the rule (1, 2) -> 3 satisfies both side
conditions, and Ligatures is idempotent on 1 2 2. -/
theorem c5_ligatures_idempotent_witness :
    (∀ l ∈ c5wfont.liga, ∀ l' ∈ c5wfont.liga, l.New ∉ l'.Old) ∧
      (∀ l ∈ c5wfont.liga, l.Old ≠ []) ∧
      c5wfont.Ligatures (c5wfont.Ligatures [1, 2, 2]) = c5wfont.Ligatures [1, 2, 2] :=
  ⟨by decide, by decide, c5_ligatures_idempotent c5wfont (by decide) (by decide) [1, 2, 2]⟩

/-! Claim C4: Kerning is the scaled sum of pair kerning and class kerning. -/

/-- C4: at scale = UnitsPerEm (the identity scaling, i.e. font design
units), Kerning is exactly the pair-kerning lookup (0 when no pair record
for (a, b) exists) plus the class-kerning lookup (0 when the class arrays
do not cover a or b, by definition of classKerner.Kern); and when neither
lookup yields anything for (a, 0), Kerning is 0 at every scale. -/
theorem c4_kerning_sum (f : Font) (a b : Nat) (hU : f.UnitsPerEm ≠ 0) :
    f.Kerning f.UnitsPerEm a b = pairKern f a b + classKernVal f a b ∧
      (pairKern f a 0 = 0 → classKernVal f a 0 = 0 → ∀ scale, f.Kerning scale a 0 = 0) := by
  constructor
  · show f.Scale (pairKern f a b + classKernVal f a b) f.UnitsPerEm = _
    unfold Font.Scale
    exact Int.mul_tdiv_cancel _ hU
  · intro hp hcl scale
    show f.Scale (pairKern f a 0 + classKernVal f a 0) scale = 0
    rw [hp, hcl]
    unfold Font.Scale
    simp [Int.zero_tdiv]

/-- c4ck maps glyph 1 to class 1 on the left, glyph 2 to class 1 on the
right, and kerns the class pair (1, 1) by 7. -/
def c4ck : classKerner :=
  { classA := [0, 1], classB := [0, 0, 1], table := [0, 0, 0, 7, 0, 0], countA := 2, countB := 3 }

/-- c4font has one pair record (1, 2) -> -80 and the class kerner c4ck;
UnitsPerEm is 1000. -/
def c4font : Font :=
  { UnitsPerEm := 1000, kern := [{ First := 1, Second := 2, Horiz := -80 }], classKern := some c4ck }

/-- Witness for C4 at c4font: the design-unit kerning of (1, 2) is the sum
-80 + 7, and the uncovered pair (5, 0) kerns to 0 at any scale. -/
theorem c4_kerning_sum_witness :
    c4font.UnitsPerEm ≠ 0 ∧
      c4font.Kerning c4font.UnitsPerEm 1 2 = pairKern c4font 1 2 + classKernVal c4font 1 2 ∧
      c4font.Kerning 77 5 0 = 0 :=
  ⟨by decide, (c4_kerning_sum c4font 1 2 (by decide)).1,
    (c4_kerning_sum c4font 5 0 (by decide)).2 (by decide) (by decide) 77⟩

/-! Claim C8: the classic kern table parser accepts absence and rejects
unsupported versions, subtable counts and coverages. -/

/-- C8: with no kern table, parseKern succeeds and leaves the font
unchanged (in ParseFont's flow nKern stays 0, kerning disabled); with a
kern table present, a version other than 0, a subtable count other than 1,
or a coverage other than 0x0001 is rejected with a FontError. -/
theorem c8_parseKern_gate (f : MFont) (kern : List Nat) :
    (kern = [] → parseKern f kern = .ok f) ∧
      (kern ≠ [] → (u16 kern 0 ≠ 0 ∨ u16 kern 2 ≠ 1 ∨ u16 kern 8 ≠ 0x0001) →
        ∃ e, parseKern f kern = .error e) := by
  constructor
  · intro h
    subst h
    rfl
  · intro hne hbad
    unfold parseKern
    by_cases h0 : kern.length = 0
    · exact absurd (List.length_eq_zero.mp h0) hne
    · rw [if_neg h0]
      by_cases h18 : kern.length < 18
      · rw [if_pos h18]; exact ⟨_, rfl⟩
      · rw [if_neg h18]
        by_cases hv : u16 kern 0 ≠ 0
        · rw [if_pos hv]; exact ⟨_, rfl⟩
        · rw [if_neg hv]
          by_cases hn : u16 kern 2 ≠ 1
          · rw [if_pos hn]; exact ⟨_, rfl⟩
          · rw [if_neg hn]
            by_cases hcv : u16 kern 8 ≠ 0x0001
            · rw [if_pos hcv]; exact ⟨_, rfl⟩
            · exfalso
              rcases hbad with hb | hb | hb
              · exact hv hb
              · exact hn hb
              · exact hcv hb

/-- c8kern is a present kern table with an unsupported version 1. -/
def c8kern : List Nat :=
  b16 1 ++ List.replicate 16 0

/-- Witness for C8: the empty table is accepted unchanged; c8kern (version
1) is rejected. -/
theorem c8_parseKern_gate_witness :
    parseKern {} [] = .ok {} ∧ ∃ e, parseKern {} c8kern = .error e :=
  ⟨(c8_parseKern_gate {} []).1 rfl,
    (c8_parseKern_gate {} c8kern).2 (by decide) (Or.inl (by decide))⟩

/-! Claim C9: the xref offset recorded by WriteObjectStart is the byte
position of the object header in the output. -/

theorem WriteString_inv (w : PDFWriter) (s : String)
    (hpos : w.pos = w.out.length) (herr : w.err = false) :
    (WriteString w s).pos = (WriteString w s).out.length ∧
      (WriteString w s).err = false ∧
      (WriteString w s).out = w.out ++ s := by
  simp [WriteString, herr, hpos]

theorem runOp_inv (w : PDFWriter) (op : PDFOp)
    (hpos : w.pos = w.out.length) (herr : w.err = false) :
    (runOp w op).pos = (runOp w op).out.length ∧ (runOp w op).err = false := by
  cases op with
  | writeString s => exact ⟨(WriteString_inv w s hpos herr).1, (WriteString_inv w s hpos herr).2.1⟩
  | nextID => exact ⟨hpos, herr⟩
  | writeObjectStart id =>
    by_cases h : id ≤ 0 <;>
      simp [runOp, WriteObjectStart, NextID, WriteString, h, herr, hpos]
  | writeObjectEnd =>
    simp [runOp, WriteObjectEnd, WriteString, herr, hpos]
  | writeObjectf id b =>
    by_cases h : id ≤ 0 <;>
      simp [runOp, WriteObjectf, WriteObjectStart, WriteObjectEnd, NextID, WriteString, h, herr, hpos]
  | writeStreamPlain s =>
    simp [runOp, WriteStreamPlain, WriteString, herr, hpos]
  | writeHeader =>
    simp [runOp, WriteHeader, WriteString, herr, hpos]

theorem runOps_inv (ops : List PDFOp) :
    (runOps ops).pos = (runOps ops).out.length ∧ (runOps ops).err = false := by
  suffices h : ∀ w : PDFWriter, w.pos = w.out.length → w.err = false →
      (ops.foldl runOp w).pos = (ops.foldl runOp w).out.length ∧
        (ops.foldl runOp w).err = false by
    exact h {} rfl rfl
  induction ops with
  | nil => intro w h1 h2; exact ⟨h1, h2⟩
  | cons op rest ih =>
    intro w h1 h2
    have hop := runOp_inv w op h1 h2
    exact ih _ hop.1 hop.2

/-- C9: after any sequence of writer operations from a fresh writer, pos
equals the length of the output written so far (the writer counts every
write itself), and WriteObjectStart on a valid reserved id records in
xref[id-1] exactly the position of the first byte of the emitted object
header line, which it appends to the output. -/
theorem c9_xref_offset (ops : List PDFOp) (id : Int) (h1 : 0 < id)
    (h2 : id ≤ ((runOps ops).xref.length : Int)) :
    (runOps ops).pos = (runOps ops).out.length ∧
      (WriteObjectStart (runOps ops) id).1.xref.getD (id - 1).toNat 0 =
        (runOps ops).out.length ∧
      (WriteObjectStart (runOps ops) id).1.out =
        (runOps ops).out ++ (toString id ++ " 0 obj\n") := by
  obtain ⟨hpos, herr⟩ := runOps_inv ops
  have hlt : (id - 1).toNat < (runOps ops).xref.length := by omega
  refine ⟨hpos, ?_, ?_⟩
  · simp only [WriteObjectStart, if_neg (by omega : ¬ id ≤ 0), WriteString, herr]
    simp only [Bool.false_eq_true, if_false]
    rw [← hpos]
    rw [List.getD_eq_getElem?_getD, List.getElem?_set_self']
    rw [List.getElem?_eq_getElem hlt]
    simp
  · simp only [WriteObjectStart, if_neg (by omega : ¬ id ≤ 0), WriteString, herr]
    simp

/-- Witness for C9: a header write and one reserved id. -/
theorem c9_xref_offset_witness :
    (runOps [PDFOp.writeHeader, PDFOp.nextID]).pos =
        (runOps [PDFOp.writeHeader, PDFOp.nextID]).out.length ∧
      (WriteObjectStart (runOps [PDFOp.writeHeader, PDFOp.nextID]) 1).1.xref.getD
          ((1 : Int) - 1).toNat 0 =
        (runOps [PDFOp.writeHeader, PDFOp.nextID]).out.length ∧
      (WriteObjectStart (runOps [PDFOp.writeHeader, PDFOp.nextID]) 1).1.out =
        (runOps [PDFOp.writeHeader, PDFOp.nextID]).out ++ (toString (1 : Int) ++ " 0 obj\n") :=
  c9_xref_offset [PDFOp.writeHeader, PDFOp.nextID] 1 (by decide) (by decide)

/-! Claim C10: HMetric is total. -/

/-- C10: HMetric returns the zero metric for every index at or above the
glyph count and whenever the parsed hmetrics array is empty; for a
nonempty array and an index between nHMetric and the glyph count it
returns the last hmetrics entry. -/
theorem c10_hmetric_total (f : Font) (i : Nat) :
    ((f.nGlyph ≤ i ∨ f.hm = []) → f.HMetric i = {}) ∧
      (f.hm ≠ [] → f.nHMetric ≤ i → i < f.nGlyph →
        f.HMetric i = f.hm.getD (f.hm.length - 1) {}) := by
  constructor
  · intro h
    unfold Font.HMetric
    rw [if_pos]
    rcases h with h | h
    · exact Or.inr h
    · exact Or.inl (by simp [h])
  · intro hne hnh hng
    unfold Font.HMetric
    rw [if_neg (not_or.mpr ⟨fun h0 => hne (List.length_eq_zero.mp h0), by omega⟩)]
    rw [if_pos hnh]

/-- c10font has two hmetric entries, nHMetric 2 and four glyphs. -/
def c10font : Font :=
  { hm := [{ Width := 5, Left := 1 }, { Width := 7, Left := 2 }], nHMetric := 2, nGlyph := 4 }

/-- Witness for C10: index 9 is out of range and yields the zero metric;
index 3 lies between nHMetric and the glyph count and yields the last
entry. -/
theorem c10_hmetric_total_witness :
    c10font.HMetric 9 = {} ∧
      c10font.HMetric 3 = c10font.hm.getD (c10font.hm.length - 1) {} :=
  ⟨(c10_hmetric_total c10font 9).1 (Or.inl (by decide)),
    (c10_hmetric_total c10font 3).2 (by decide) (by decide) (by decide)⟩

/-! Claims C6 and C7: the line breaker scan and justification numbers.
layoutFont is a small fixture font for both: one glyph of advance width
1000 at unitsPerEm 1000, reached from the space code 32 through the cmap
delta 65504 (so that a Space token is exactly one em wide). -/

/-- layoutFont is the layout fixture font described above. -/
def layoutFont : Font :=
  { UnitsPerEm := 1000, nGlyph := 1, nHMetric := 1, hm := [{ Width := 1000, Left := 0 }],
    cm := [{ start := 32, stop := 32, delta := 65504, offset := 0 }] }

/-- c6state renders at size 10 with max width 10, so one space fills the
line exactly. -/
def c6state : State :=
  { font := layoutFont, size := 10, maxWidth := 10 }

/-- c6wstate renders at size 10 with max width 30. -/
def c6wstate : State :=
  { font := layoutFont, size := 10, maxWidth := 30 }

theorem c6w_eval :
    GetWidth c6state (Token.canBreak none (some (Token.space " ")) none) = (10, c6state) := by
  show (((c6state.font.Scale (c6state.font.HMetric (c6state.font.Index 32)).Width 1000 : Int) : ℚ) / 1000 * c6state.size, c6state) = (10, c6state)
  rw [show c6state.font.Scale (c6state.font.HMetric (c6state.font.Index 32)).Width 1000 = 1000 from by decide]
  show (((1000 : Int) : ℚ) / 1000 * (10 : ℚ), c6state) = (10, c6state)
  norm_num

theorem c6w2_eval :
    GetWidth c6wstate (Token.canBreak none (some (Token.space " ")) none) = (10, c6wstate) := by
  show (((c6wstate.font.Scale (c6wstate.font.HMetric (c6wstate.font.Index 32)).Width 1000 : Int) : ℚ) / 1000 * c6wstate.size, c6wstate) = (10, c6wstate)
  rw [show c6wstate.font.Scale (c6wstate.font.HMetric (c6wstate.font.Index 32)).Width 1000 = 1000 from by decide]
  show (((1000 : Int) : ℚ) / 1000 * (10 : ℚ), c6wstate) = (10, c6wstate)
  norm_num

/-- C6 as amended: one scan step of SplitLines.  A LineBreak or
ParagraphBreak that does not overflow terminates the scan at its own
index; a CanBreak that does not overflow is recorded as break candidate
exactly when the accumulated width (which already includes its no-break
width) plus the width of its Before token is strictly below the state's
max width.  The spec's non-strict comparison is refuted by the
counterexample below. -/
theorem c6_scan_break_conditions (s : State) (width : ℚ) (bp : Int) (i : Nat)
    (b nb a : Option Token) (rest : List Token) :
    (¬ width + (GetWidth s (Token.canBreak b nb a)).1 >
        (GetWidth s (Token.canBreak b nb a)).2.maxWidth →
      scanLoop s width bp i (Token.canBreak b nb a :: rest) =
        scanLoop (getWidthOpt (GetWidth s (Token.canBreak b nb a)).2 b).2
          (width + (GetWidth s (Token.canBreak b nb a)).1)
          (if width + (GetWidth s (Token.canBreak b nb a)).1 +
              (getWidthOpt (GetWidth s (Token.canBreak b nb a)).2 b).1 <
              (getWidthOpt (GetWidth s (Token.canBreak b nb a)).2 b).2.maxWidth
            then (i : Int) else bp)
          (i + 1) rest) ∧
      (¬ width > s.maxWidth →
        scanLoop s width bp i (Token.lineBreak :: rest) = (i : Int)) ∧
      (¬ width > s.maxWidth →
        scanLoop s width bp i (Token.paragraphBreak :: rest) = (i : Int)) := by
  refine ⟨?_, ?_, ?_⟩
  · intro hof
    simp only [scanLoop]
    rw [if_neg hof]
  · intro hof
    simp only [scanLoop]
    rw [if_neg (by simpa [GetWidth] using hof)]
  · intro hof
    simp only [scanLoop]
    rw [if_neg (by simpa [GetWidth] using hof)]

/-- C6 counterexample: with max width 10 and a discretionary break whose
no-break space is exactly 10 wide and whose Before part is nil, the
accumulated width plus the Before width equals max width.  The spec's
non-strict condition is satisfied, yet the scan refuses the candidate
(the code compares strictly) and ends with no break position. -/
theorem c6_counterexample :
    scanLoop c6state 0 (-1) 0 [Token.canBreak none (some (Token.space " ")) none] = -1 ∧
      0 + (GetWidth c6state (Token.canBreak none (some (Token.space " ")) none)).1 +
          (getWidthOpt (GetWidth c6state (Token.canBreak none (some (Token.space " ")) none)).2 none).1 ≤
        (getWidthOpt (GetWidth c6state (Token.canBreak none (some (Token.space " ")) none)).2 none).2.maxWidth := by
  constructor
  · simp only [scanLoop]
    rw [c6w_eval]
    norm_num [getWidthOpt, c6state, scanLoop]
  · rw [c6w_eval]
    norm_num [getWidthOpt, c6state]

/-- Witness for C6 as amended: at max width 30 the same discretionary
break does not overflow, and the scan step equation applies. -/
theorem c6_scan_break_conditions_witness :
    (¬ (0 : ℚ) + (GetWidth c6wstate (Token.canBreak none (some (Token.space " ")) none)).1 >
        (GetWidth c6wstate (Token.canBreak none (some (Token.space " ")) none)).2.maxWidth) ∧
      scanLoop c6wstate 0 (-1) 0 [Token.canBreak none (some (Token.space " ")) none] =
        scanLoop (getWidthOpt (GetWidth c6wstate (Token.canBreak none (some (Token.space " ")) none)).2 none).2
          ((0 : ℚ) + (GetWidth c6wstate (Token.canBreak none (some (Token.space " ")) none)).1)
          (if (0 : ℚ) + (GetWidth c6wstate (Token.canBreak none (some (Token.space " ")) none)).1 +
              (getWidthOpt (GetWidth c6wstate (Token.canBreak none (some (Token.space " ")) none)).2 none).1 <
              (getWidthOpt (GetWidth c6wstate (Token.canBreak none (some (Token.space " ")) none)).2 none).2.maxWidth
            then ((0 : Nat) : Int) else -1)
          (0 + 1) [] := by
  have h : ¬ (0 : ℚ) + (GetWidth c6wstate (Token.canBreak none (some (Token.space " ")) none)).1 >
      (GetWidth c6wstate (Token.canBreak none (some (Token.space " ")) none)).2.maxWidth := by
    rw [c6w2_eval]
    norm_num [c6wstate]
  exact ⟨h, (c6_scan_break_conditions c6wstate 0 (-1) 0 none (some (Token.space " ")) none []).1 h⟩

/-- ratTrunc agrees with the floor on nonnegative rationals. -/
theorem ratTrunc_nonneg_eq_floor (q : ℚ) (h : 0 ≤ q) : ratTrunc q = ⌊q⌋ := by
  unfold ratTrunc
  rw [Rat.floor_def]
  rw [Int.tdiv_eq_ediv (Rat.num_nonneg.mpr h) (by positivity)]

/-- C7 as amended: at a LineBreak the justification scan yields the word
spacing (max_width - accumulated width) / numSpaces; the content-stream
emission then writes after each space glyph the integer
-int(word_spacing / size * 1000), a truncation toward zero, which is
nonpositive (rather than the spec's -round(...), refuted below). -/
theorem c7_wordspacing_truncation (s se : State) (toks : List Token)
    (width : ℚ) (k : Nat) (rest : List Token)
    (hws : 0 < spacingScan s 0 0 toks) (hsize : 0 < se.size) :
    spacingScan s width k (Token.lineBreak :: rest) = (s.maxWidth - width) / (k : ℚ) ∧
      emitSpaceAdj se (spacingScan s 0 0 toks) =
        some (-(ratTrunc (spacingScan s 0 0 toks / se.size * 1000))) ∧
      -(ratTrunc (spacingScan s 0 0 toks / se.size * 1000)) ≤ 0 := by
  refine ⟨?_, ?_, ?_⟩
  · simp [spacingScan, GetWidth]
  · unfold emitSpaceAdj
    rw [if_pos hws]
  · have hq : 0 ≤ spacingScan s 0 0 toks / se.size * 1000 := by positivity
    have htr : 0 ≤ ratTrunc (spacingScan s 0 0 toks / se.size * 1000) := by
      unfold ratTrunc
      exact Int.tdiv_nonneg (Rat.num_nonneg.mpr hq) (Int.natCast_nonneg _)
    omega

/-- c7state renders at size 16 with max width 17; a single space line of
width 16 leaves word spacing 1. -/
def c7state : State :=
  { font := layoutFont, size := 16, maxWidth := 17 }

theorem c7space_eval : GetWidth c7state (Token.space " ") = (16, c7state) := by
  show (((c7state.font.Scale (c7state.font.HMetric (c7state.font.Index 32)).Width 1000 : Int) : ℚ) / 1000 * c7state.size, c7state) = (16, c7state)
  rw [show c7state.font.Scale (c7state.font.HMetric (c7state.font.Index 32)).Width 1000 = 1000 from by decide]
  show (((1000 : Int) : ℚ) / 1000 * (16 : ℚ), c7state) = (16, c7state)
  norm_num

theorem c7scan_eval : spacingScan c7state 0 0 [Token.space " ", Token.lineBreak] = 1 := by
  simp only [spacingScan]
  rw [c7space_eval]
  norm_num [c7state, GetWidth]

/-- C7 counterexample: at word spacing 1 and size 16 the quantity
word_spacing / size * 1000 is exactly 62.5 (a value float64 represents
exactly as well); the code truncates and emits -62, while the spec's
-round(word_spacing / size * 1000) is -63. -/
theorem c7_counterexample :
    spacingScan c7state 0 0 [Token.space " ", Token.lineBreak] = 1 ∧
      emitSpaceAdj c7state 1 = some (-62) ∧
      -(round ((1 : ℚ) / c7state.size * 1000)) = -63 ∧
      emitSpaceAdj c7state 1 ≠ some (-(round ((1 : ℚ) / c7state.size * 1000))) := by
  have h2 : emitSpaceAdj c7state 1 = some (-62) := by
    unfold emitSpaceAdj
    rw [if_pos (by norm_num)]
    have hv : (1 : ℚ) / c7state.size * 1000 = 125 / 2 := by
      norm_num [c7state]
    rw [hv, ratTrunc_nonneg_eq_floor (125 / 2) (by norm_num)]
    norm_num
  have h3 : -(round ((1 : ℚ) / c7state.size * 1000)) = -63 := by
    have hv : (1 : ℚ) / c7state.size * 1000 = 125 / 2 := by
      norm_num [c7state]
    rw [hv, round_eq]
    norm_num
  refine ⟨c7scan_eval, h2, h3, ?_⟩
  rw [h2, h3]
  simp

/-- Witness for C7 as amended, on the one-space line of c7state. -/
theorem c7_wordspacing_truncation_witness :
    0 < spacingScan c7state 0 0 [Token.space " ", Token.lineBreak] ∧
      0 < c7state.size ∧
      emitSpaceAdj c7state (spacingScan c7state 0 0 [Token.space " ", Token.lineBreak]) =
        some (-(ratTrunc (spacingScan c7state 0 0 [Token.space " ", Token.lineBreak] / c7state.size * 1000))) :=
  ⟨by rw [c7scan_eval]; norm_num, by norm_num [c7state],
    (c7_wordspacing_truncation c7state c7state [Token.space " ", Token.lineBreak] 0 0 []
      (by rw [c7scan_eval]; norm_num) (by norm_num [c7state])).2.1⟩

end Imp
